import Mathlib

/-!
Discovery server registry (`lib/server/opcua_discovery_server.js`).

A shallow embedding of the registration handler `_on_RegisterServerRequest`,
of the `registeredServerCount` getter and of `getServers`, together with the
part of the JavaScript object model that the registry `registered_servers`
(a plain object used as a map from `serverUri` to an entry) relies on.
-/

namespace OpcuaDiscovery

/-! ## Plain JavaScript objects used as maps -/

/-- The own enumerable string-keyed properties of a plain JavaScript object,
listed in the order in which the properties were created. -/
abbrev JSObject (α : Type) := List (String × α)

namespace JSObject

/-- Numeric value of a string made of decimal digits, most significant first. -/
def digitsValue (cs : List Char) : Nat :=
  cs.foldl (fun acc c => 10 * acc + (c.toNat - 48)) 0

/-- The array index denoted by a property key, if the key is one: a canonical
decimal numeral (no sign, no leading zero except for "0" itself) whose value is
at most 2^32 - 2. Such keys are enumerated first, in ascending numeric order. -/
def arrayIndex? (key : String) : Option Nat :=
  let cs := key.toList
  if cs.isEmpty then none
  else if !cs.all Char.isDigit then none
  else if cs.head? = some '0' ∧ cs.length ≠ 1 then none
  else if digitsValue cs ≤ 4294967294 then some (digitsValue cs) else none

/-- Own-property test (what `Object.keys` sees). -/
def hasOwn {α : Type} (o : JSObject α) (key : String) : Bool :=
  o.any (fun p => p.1 == key)

/-- Read of an own property, `o[key]`. -/
def get? {α : Type} (o : JSObject α) (key : String) : Option α :=
  (o.find? (fun p => p.1 == key)).map Prod.snd

/-- Assignment `o[key] = v` on an object created by the literal `{}`.
The key "__proto__" names the accessor inherited from `Object.prototype`:
assigning an object to it replaces the prototype and creates no own property.
Any other key overwrites the value of an existing own property in place
(keeping its position) or creates a new property, last in creation order. -/
def set {α : Type} (o : JSObject α) (key : String) (v : α) : JSObject α :=
  if key = "__proto__" then o
  else if hasOwn o key then o.map (fun p => if p.1 == key then (p.1, v) else p)
  else o ++ [(key, v)]

/-- Removal `delete o[key]`: drops the own property if there is one and does
nothing otherwise (inherited properties are never removed). -/
def delete {α : Type} (o : JSObject α) (key : String) : JSObject α :=
  o.filter (fun p => !(p.1 == key))

/-- Own properties in enumeration order (`OrdinaryOwnPropertyKeys`): first the
array-index keys in ascending numeric order, then every other key in order of
creation. -/
def enumerate {α : Type} (o : JSObject α) : List (String × α) :=
  ((o.filterMap (fun p => (arrayIndex? p.1).map (fun n => (n, p)))).insertionSort
      (fun a b => a.1 ≤ b.1)).map Prod.snd
    ++ o.filter (fun p => (arrayIndex? p.1).isNone)

/-- `Object.keys(o)`. -/
def keys {α : Type} (o : JSObject α) : List String :=
  (enumerate o).map Prod.fst

/-- The values visited by underscore's `_.forEach(o, f)` on an object that is
not array-like, in visiting order (the order of `_.keys(o)`). -/
def values {α : Type} (o : JSObject α) : List α :=
  (enumerate o).map Prod.snd

/-- A store is well formed when no key occurs twice and there is no own property
named "__proto__": an object created by the literal `{}` and changed only by
assignment and `delete` never has one. -/
def WellFormed {α : Type} (o : JSObject α) : Prop :=
  (o.map Prod.fst).Nodup ∧ "__proto__" ∉ o.map Prod.fst

instance decidableWellFormed {α : Type} (o : JSObject α) : Decidable (WellFormed o) :=
  inferInstanceAs (Decidable ((o.map Prod.fst).Nodup ∧ "__proto__" ∉ o.map Prod.fst))

end JSObject

/-! ## Data model -/

/-- The enumeration `ApplicationType`; `unrecognized` stands for any value that
is none of the four enumeration items. -/
inductive ApplicationType where
  | SERVER
  | CLIENT
  | CLIENTANDSERVER
  | DISCOVERYSERVER
  | unrecognized (n : Nat)
  deriving DecidableEq, Repr

/-- The status codes that the handler puts in a response header. -/
inductive StatusCode where
  | Good
  | BadInvalidArgument
  | BadServerNameMissing
  | BadDiscoveryUrlMissing
  deriving DecidableEq, Repr

/-- Localized text; a field that is null or not set is `none`. -/
structure LocalizedText where
  text : Option String
  locale : Option String
  deriving DecidableEq, Repr

/-- An application description as a JavaScript object; a property that is
undefined or null is `none`. -/
structure ApplicationDescription where
  applicationUri : Option String
  applicationType : ApplicationType
  productUri : Option String
  applicationName : Option LocalizedText
  gatewayServerUri : Option String
  discoveryProfileUri : Option String
  discoveryUrls : List String
  deriving DecidableEq, Repr

/-- The `server` field of a register-server request whose `serverUri` is a
string. The decoder can also deliver a null `serverUri`: that case is
`DecodedRegisteredServer`, handled by `_on_RegisterServerRequest_decoded`. -/
structure RegisteredServer where
  serverUri : String
  productUri : Option String
  serverNames : List LocalizedText
  serverType : ApplicationType
  gatewayServerUri : Option String
  discoveryUrls : List String
  semaphoreFilePath : Option String
  isOnline : Bool
  deriving DecidableEq, Repr

/-- A decoded `RegisterServerRequest`. -/
structure RegisterServerRequest where
  server : RegisteredServer
  deriving DecidableEq, Repr

/-- A value held by `registered_servers`: the request's `server` object after
the handler has attached its `serverInfo` property to it. -/
structure RegisteredServerEntry where
  server : RegisteredServer
  serverInfo : ApplicationDescription
  deriving DecidableEq, Repr

/-- The header of a response. -/
structure ResponseHeader where
  serviceResult : StatusCode
  deriving DecidableEq, Repr

/-- A `RegisterServerResponse`. -/
structure RegisterServerResponse where
  responseHeader : ResponseHeader
  deriving DecidableEq, Repr

/-- Modelled from the spec: the constructor of `RegisterServerResponse` lives in
`lib/services/register_server_service`, which is not part of the sources; built
from an options object without a response header it yields the success response,
whose result is the implicit `Good`. -/
def RegisterServerResponse.default : RegisterServerResponse :=
  { responseHeader := { serviceResult := StatusCode.Good } }

/-- The state of a discovery server that the handlers read and write: its own
description `serverInfo` and the registry `registered_servers`. -/
structure OPCUADiscoveryServer where
  serverInfo : ApplicationDescription
  registered_servers : JSObject RegisteredServerEntry
  deriving DecidableEq, Repr

/-! ## Operations -/

/-- Source `_isValideServerType`: true if the serverType can be added to a
discovery server. -/
def _isValideServerType (serverType : ApplicationType) : Bool :=
  match serverType with
  | ApplicationType.CLIENT => false
  | ApplicationType.SERVER => true
  | ApplicationType.CLIENTANDSERVER => true
  | ApplicationType.DISCOVERYSERVER => true
  | ApplicationType.unrecognized _ => false

/-- The local function `sendError` of the handler: the response built for a
status code (it is then handed to `channel.send_response`). -/
def sendError (statusCode : StatusCode) : RegisterServerResponse :=
  { responseHeader := { serviceResult := statusCode } }

/-- The object `serverInfo` prepared by the handler for `FindServers`.
`applicationUri` is read from the property `serverUri` of the freshly created,
still empty `serverInfo` object itself, hence undefined; `discoveryProfileUri`
is never assigned. -/
def prepareServerInfo (server : RegisteredServer) : ApplicationDescription :=
  { applicationUri := none
    applicationType := server.serverType
    productUri := server.productUri
    applicationName := server.serverNames.head?
    gatewayServerUri := server.gatewayServerUri
    discoveryProfileUri := none
    discoveryUrls := server.discoveryUrls }

/-- Source `OPCUADiscoveryServer.prototype._on_RegisterServerRequest`. The result
is the server after the call together with the responses handed to
`channel.send_response`, in order. The two statements that store
`request.server` under `key` and then attach `serverInfo` to the stored object
are one assignment of the completed entry. The guard `key in registered_servers`
also holds for inherited names, for which the removal changes no own property. -/
def _on_RegisterServerRequest (server : OPCUADiscoveryServer)
    (request : RegisterServerRequest) :
    OPCUADiscoveryServer × List RegisterServerResponse :=
  if !_isValideServerType request.server.serverType then
    (server, [sendError StatusCode.BadInvalidArgument])
  else if request.server.serverNames.length = 0 then
    (server, [sendError StatusCode.BadServerNameMissing])
  else if request.server.discoveryUrls.length = 0 then
    (server, [sendError StatusCode.BadDiscoveryUrlMissing])
  else
    let key := request.server.serverUri
    let server' : OPCUADiscoveryServer :=
      if request.server.isOnline then
        { server with
          registered_servers :=
            JSObject.set server.registered_servers key
              { server := request.server
                serverInfo := prepareServerInfo request.server } }
      else if JSObject.hasOwn server.registered_servers key then
        { server with
          registered_servers := JSObject.delete server.registered_servers key }
      else server
    (server', [RegisterServerResponse.default])

/-- Source getter `registeredServerCount`: `Object.keys(registered_servers).length`. -/
def registeredServerCount (self : OPCUADiscoveryServer) : Nat :=
  (JSObject.keys self.registered_servers).length

/-- Source `OPCUADiscoveryServer.prototype.getServers`. `getDiscoveryUrls` is the
method inherited from `OPCUABaseServer` (not part of the sources), taken as a
parameter: the discovery URLs of the service for a connection context. The call
overwrites `self.serverInfo.discoveryUrls`, so the server after the call is
returned next to the list of descriptions. -/
def getServers {Channel : Type} (getDiscoveryUrls : Channel → List String)
    (self : OPCUADiscoveryServer) (channel : Channel) :
    List ApplicationDescription × OPCUADiscoveryServer :=
  let self' : OPCUADiscoveryServer :=
    { self with
      serverInfo := { self.serverInfo with discoveryUrls := getDiscoveryUrls channel } }
  let servers := [self'.serverInfo]
  let servers := (JSObject.values self'.registered_servers).foldl
    (fun acc registered_server => acc ++ [registered_server.serverInfo]) servers
  (servers, self')

/-! ## Concrete inputs (those of `test/test_discovery_server.js`) -/

/-- The `server` field used by the tests: type Server, one name. -/
def testServer (discoveryUrls : List String) (isOnline : Bool) : RegisteredServer :=
  { serverUri := "uri:MyServerURI"
    productUri := some "productUri"
    serverNames := [{ text := some "some name", locale := none }]
    serverType := ApplicationType.SERVER
    gatewayServerUri := none
    discoveryUrls := discoveryUrls
    semaphoreFilePath := none
    isOnline := isOnline }

/-- A registration that passes validation. -/
def registerRequest : RegisterServerRequest :=
  { server := testServer ["opc.tcp://host:1234"] true }

/-- The matching unregistration (same fields, `isOnline` false). -/
def unregisterRequest : RegisterServerRequest :=
  { server := testServer ["opc.tcp://host:1234"] false }

/-- The request of the test "discovery url is not specified". -/
def noUrlRequest : RegisterServerRequest :=
  { server := testServer [] false }

/-- The request of the test "server type is Client". -/
def clientRequest : RegisterServerRequest :=
  { server := { testServer [] false with serverType := ApplicationType.CLIENT } }

/-- The request of the test "server name array is empty". -/
def noNameRequest : RegisterServerRequest :=
  { server := { testServer [] false with serverNames := [] } }

/-- A registration that passes validation and whose serverUri is "__proto__". -/
def protoRequest : RegisterServerRequest :=
  { server := { testServer ["opc.tcp://host:1234"] true with serverUri := "__proto__" } }

/-- A discovery server as the constructor leaves it with default options apart
from `applicationUri`: own description filled with the defaults, empty registry. -/
def blankServer : OPCUADiscoveryServer :=
  { serverInfo :=
      { applicationUri := some "urn:host:NodeOPCUA-DiscoveryServer"
        applicationType := ApplicationType.DISCOVERYSERVER
        productUri := some "SampleDiscoveryServer"
        applicationName := some { text := some "SampleDiscoveryServer", locale := none }
        gatewayServerUri := some ""
        discoveryProfileUri := some ""
        discoveryUrls := [] }
    registered_servers := [] }

/-- The blank server after `registerRequest` has been handled. -/
def oneServer : OPCUADiscoveryServer :=
  (_on_RegisterServerRequest blankServer registerRequest).1

/-- A sample `getDiscoveryUrls`: one endpoint URL per connection context. -/
def sampleDiscoveryUrls (channel : Nat) : List String :=
  if channel = 0 then ["opc.tcp://localhost:1235/UADiscovery"]
  else ["opc.tcp://10.0.0.1:1235/UADiscovery"]

/-- The status codes of a list of responses. -/
def serviceResults (responses : List RegisterServerResponse) : List StatusCode :=
  responses.map (fun r => r.responseHeader.serviceResult)

/-! ## Sequences of requests and construction -/

/-- The server after a sequence of requests has been handled one after the
other, each by `_on_RegisterServerRequest`. -/
def handleAll (server : OPCUADiscoveryServer) (requests : List RegisterServerRequest) :
    OPCUADiscoveryServer :=
  requests.foldl (fun s request => (_on_RegisterServerRequest s request).1) server

/-- The entry that the handler stores for a request. -/
def entryOf (request : RegisterServerRequest) : RegisteredServerEntry :=
  { server := request.server
    serverInfo := prepareServerInfo request.server }

/-- The three validation steps of the handler, as one test: valid serverType,
non-empty serverNames, non-empty discoveryUrls. -/
def passesValidation (request : RegisterServerRequest) : Bool :=
  _isValideServerType request.server.serverType
    && !(request.server.serverNames.length == 0)
    && !(request.server.discoveryUrls.length == 0)

/-- The object `options.serverInfo` as a caller passes it to the constructor; a
property that is undefined or null is `none`. -/
structure ServerInfoOptions where
  applicationUri : Option String
  applicationType : Option ApplicationType
  productUri : Option String
  applicationName : Option LocalizedText
  gatewayServerUri : Option String
  discoveryProfileUri : Option String
  discoveryUrls : Option (List String)
  deriving DecidableEq, Repr

/-- JavaScript `a || b` where `a` is a string, undefined or null: `a` unless it
is undefined, null or the empty string. -/
def orString (a : Option String) (b : String) : String :=
  match a with
  | some s => if s = "" then b else s
  | none => b

/-- JavaScript `a || b` where `a` is an object or array, undefined or null: every
object and every array, the empty one included, is kept. -/
def orObject {α : Type} (a : Option α) (b : α) : α :=
  match a with
  | some x => x
  | none => b

/-- Source constructor `OPCUADiscoveryServer(options)`, the part that builds the
server's own description and the registry. `defaultApplicationUri` is the result
of `makeApplicationUrn(get_fully_qualified_domain_name(), "NodeOPCUA-DiscoveryServer")`
(both helpers are outside the sources), and `serverInfo` is `options.serverInfo`. -/
def OPCUADiscoveryServer.new (defaultApplicationUri : String)
    (serverInfo : Option ServerInfoOptions) : OPCUADiscoveryServer :=
  let serverInfo : ServerInfoOptions :=
    orObject serverInfo
      { applicationUri := none, applicationType := none, productUri := none,
        applicationName := none, gatewayServerUri := none, discoveryProfileUri := none,
        discoveryUrls := none }
  { serverInfo :=
      { applicationType := ApplicationType.DISCOVERYSERVER
        applicationUri := some (orString serverInfo.applicationUri defaultApplicationUri)
        productUri := some (orString serverInfo.productUri "SampleDiscoveryServer")
        applicationName :=
          some (orObject serverInfo.applicationName
            { text := some "SampleDiscoveryServer", locale := none })
        gatewayServerUri := some (orString serverInfo.gatewayServerUri "")
        discoveryProfileUri := some (orString serverInfo.discoveryProfileUri "")
        discoveryUrls := orObject serverInfo.discoveryUrls [] }
    registered_servers := [] }

/-- A registration that passes validation, for a given serverUri and productUri. -/
def namedRequest (serverUri productUri : String) : RegisterServerRequest :=
  { server :=
      { testServer ["opc.tcp://host:1234"] true with
        serverUri := serverUri
        productUri := some productUri } }

/-- Options whose serverInfo sets every field, with applicationType Client. -/
def fullOptions : ServerInfoOptions :=
  { applicationUri := some "urn:my:discovery"
    applicationType := some ApplicationType.CLIENT
    productUri := some "MyProduct"
    applicationName := some { text := some "My discovery", locale := some "en" }
    gatewayServerUri := some "urn:gateway"
    discoveryProfileUri := some "urn:profile"
    discoveryUrls := some ["opc.tcp://my:4840"] }

/-- Two registrations whose serverUri are the array indices "2" and "1", in that
order. -/
def indexRequests : List RegisterServerRequest :=
  [namedRequest "2" "registered first", namedRequest "1" "registered second"]

/-- The blank server after "uri:a" and then "uri:b" have been registered. -/
def twoServers : OPCUADiscoveryServer :=
  handleAll blankServer [namedRequest "uri:a" "product a", namedRequest "uri:b" "product b"]

/-- The unregistration that matches `protoRequest`. -/
def protoUnregisterRequest : RegisterServerRequest :=
  { server := { protoRequest.server with isOnline := false } }

/-- Four registrations with distinct serverUri, two of them array indices. -/
def mixedRequests : List RegisterServerRequest :=
  [namedRequest "uri:b" "product b", namedRequest "2" "product 2",
    namedRequest "1" "product 1", namedRequest "uri:a" "product a"]

/-! ## Requests with a null serverUri -/

/-- An exception thrown by the JavaScript runtime. -/
inductive JSError where
  | TypeError
  deriving DecidableEq, Repr

/-- The `server` field of a register-server request as the decoder delivers it:
as `RegisteredServer`, except that the string `serverUri` may be null (`none`). -/
structure DecodedRegisteredServer where
  serverUri : Option String
  productUri : Option String
  serverNames : List LocalizedText
  serverType : ApplicationType
  gatewayServerUri : Option String
  discoveryUrls : List String
  semaphoreFilePath : Option String
  isOnline : Bool
  deriving DecidableEq, Repr

/-- A decoded `RegisterServerRequest` whose `serverUri` may be null. -/
structure DecodedRegisterServerRequest where
  server : DecodedRegisteredServer
  deriving DecidableEq, Repr

/-- The same `server` object with a string for `serverUri`. -/
def DecodedRegisteredServer.withServerUri (d : DecodedRegisteredServer)
    (serverUri : String) : RegisteredServer :=
  { serverUri := serverUri
    productUri := d.productUri
    serverNames := d.serverNames
    serverType := d.serverType
    gatewayServerUri := d.gatewayServerUri
    discoveryUrls := d.discoveryUrls
    semaphoreFilePath := d.semaphoreFilePath
    isOnline := d.isOnline }

/-- Source `OPCUADiscoveryServer.prototype._on_RegisterServerRequest` on a decoded
request. With a string `serverUri` it is `_on_RegisterServerRequest`. With a
null `serverUri` the three checks run as usual; then `key` is null, and
* when `isOnline` is true, line 140 evaluates `request.server.serverUri.yellow`
  for its log message before the assignment of line 141: reading a property of
  null throws a TypeError, nothing is stored and no response is sent;
* when `isOnline` is false, `key in registered_servers` tests the property named
  "null"; if there is one, line 156 throws the same TypeError before the
  `delete`; otherwise nothing is removed and the success response is sent.
The result is the thrown exception, or the server after the call with the
responses handed to `channel.send_response`. -/
def _on_RegisterServerRequest_decoded (server : OPCUADiscoveryServer)
    (request : DecodedRegisterServerRequest) :
    Except JSError (OPCUADiscoveryServer × List RegisterServerResponse) :=
  match request.server.serverUri with
  | some serverUri =>
    Except.ok
      (_on_RegisterServerRequest server { server := request.server.withServerUri serverUri })
  | none =>
    if !_isValideServerType request.server.serverType then
      Except.ok (server, [sendError StatusCode.BadInvalidArgument])
    else if request.server.serverNames.length = 0 then
      Except.ok (server, [sendError StatusCode.BadServerNameMissing])
    else if request.server.discoveryUrls.length = 0 then
      Except.ok (server, [sendError StatusCode.BadDiscoveryUrlMissing])
    else if request.server.isOnline then
      Except.error JSError.TypeError
    else if JSObject.hasOwn server.registered_servers "null" then
      Except.error JSError.TypeError
    else
      Except.ok (server, [RegisterServerResponse.default])

/-- The responses that the handler has sent on a decoded request: none when it
threw. -/
def responsesSent (server : OPCUADiscoveryServer) (request : DecodedRegisterServerRequest) :
    List RegisterServerResponse :=
  match _on_RegisterServerRequest_decoded server request with
  | Except.ok result => result.2
  | Except.error _ => []

/-- Whether the handler threw on a decoded request. -/
def threw (server : OPCUADiscoveryServer) (request : DecodedRegisterServerRequest) : Bool :=
  match _on_RegisterServerRequest_decoded server request with
  | Except.ok _ => false
  | Except.error _ => true

/-- The registration of the tests with a null `serverUri`. -/
def nullUriRequest (isOnline : Bool) : DecodedRegisterServerRequest :=
  { server :=
      { serverUri := none
        productUri := some "productUri"
        serverNames := [{ text := some "some name", locale := none }]
        serverType := ApplicationType.SERVER
        gatewayServerUri := none
        discoveryUrls := ["opc.tcp://host:1234"]
        semaphoreFilePath := none
        isOnline := isOnline } }

/-- The blank server after a server whose serverUri is the string "null" has
been registered. -/
def nullKeyServer : OPCUADiscoveryServer :=
  (_on_RegisterServerRequest blankServer (namedRequest "null" "product")).1

/-! ## Facts about the object store and the handler -/

theorem isValide_iff (t : ApplicationType) :
    _isValideServerType t = true ↔
      t = ApplicationType.SERVER ∨ t = ApplicationType.CLIENTANDSERVER ∨
        t = ApplicationType.DISCOVERYSERVER := by
  cases t <;> simp [_isValideServerType]

namespace JSObject

theorem indexPart_map_snd {α : Type} (o : JSObject α) :
    (o.filterMap (fun p => (arrayIndex? p.1).map (fun n => (n, p)))).map Prod.snd
      = o.filter (fun p => (arrayIndex? p.1).isSome) := by
  induction o with
  | nil => rfl
  | cons p t ih =>
    cases h : arrayIndex? p.1 with
    | none => simp [List.filterMap_cons, List.filter_cons, h, ih]
    | some n => simp [List.filterMap_cons, List.filter_cons, h, ih]

theorem enumerate_perm {α : Type} (o : JSObject α) : (enumerate o).Perm o := by
  unfold enumerate
  have h1 : (((o.filterMap (fun p => (arrayIndex? p.1).map (fun n => (n, p)))).insertionSort
      (fun a b => a.1 ≤ b.1)).map Prod.snd).Perm
        (o.filter (fun p => (arrayIndex? p.1).isSome)) := by
    rw [← indexPart_map_snd]
    exact (List.perm_insertionSort _ _).map _
  have h2 : o.filter (fun p => (arrayIndex? p.1).isNone)
      = o.filter (fun p => !(arrayIndex? p.1).isSome) := by
    congr 1
    funext p
    cases arrayIndex? p.1 <;> rfl
  rw [h2]
  exact (h1.append_right _).trans (List.filter_append_perm _ o)

theorem length_keys {α : Type} (o : JSObject α) : (keys o).length = o.length := by
  simp [keys, (enumerate_perm o).length_eq]

theorem length_values {α : Type} (o : JSObject α) : (values o).length = o.length := by
  simp [values, (enumerate_perm o).length_eq]

theorem mem_keys {α : Type} (o : JSObject α) (key : String) :
    key ∈ keys o ↔ key ∈ o.map Prod.fst :=
  ((enumerate_perm o).map Prod.fst).mem_iff

theorem hasOwn_iff {α : Type} (o : JSObject α) (key : String) :
    hasOwn o key = true ↔ key ∈ o.map Prod.fst := by
  unfold hasOwn
  rw [List.any_eq_true, List.mem_map]
  constructor
  · rintro ⟨p, hp, hk⟩
    exact ⟨p, hp, by simpa using hk⟩
  · rintro ⟨p, hp, hk⟩
    exact ⟨p, hp, by simpa using hk⟩

theorem hasOwn_iff_mem_keys {α : Type} (o : JSObject α) (key : String) :
    hasOwn o key = true ↔ key ∈ keys o := by
  rw [hasOwn_iff, mem_keys]

/-- Removing a key that is not an own property changes nothing, so the guard
`key in o` in front of a `delete` has no effect on the own properties. -/
theorem delete_of_not_hasOwn {α : Type} (o : JSObject α) (key : String)
    (h : hasOwn o key = false) : delete o key = o := by
  unfold delete
  rw [List.filter_eq_self]
  intro p hp
  have : ¬ hasOwn o key = true := by simp [h]
  rw [hasOwn_iff] at this
  have hne : p.1 ≠ key := fun e => this (e ▸ List.mem_map_of_mem Prod.fst hp)
  simpa using hne

theorem map_fst_set_of_hasOwn {α : Type} (o : JSObject α) (key : String) (v : α) :
    (o.map (fun p => if p.1 == key then (p.1, v) else p)).map Prod.fst = o.map Prod.fst := by
  rw [List.map_map]
  apply List.map_congr_left
  intro p _
  by_cases h : p.1 = key <;> simp [h]

theorem map_fst_set {α : Type} (o : JSObject α) (key : String) (v : α)
    (hkey : key ≠ "__proto__") :
    (set o key v).map Prod.fst
      = if hasOwn o key then o.map Prod.fst else o.map Prod.fst ++ [key] := by
  unfold set
  rw [if_neg hkey]
  by_cases h : hasOwn o key = true
  · rw [if_pos h, if_pos h, map_fst_set_of_hasOwn]
  · rw [if_neg h, if_neg h]; simp

theorem set_proto {α : Type} (o : JSObject α) (v : α) : set o "__proto__" v = o := by
  simp [set]

theorem length_set {α : Type} (o : JSObject α) (key : String) (v : α)
    (hkey : key ≠ "__proto__") :
    (set o key v).length = if hasOwn o key then o.length else o.length + 1 := by
  have h := congrArg List.length (map_fst_set o key v hkey)
  by_cases hk : hasOwn o key = true
  · simpa [hk] using h
  · simpa [hk] using h

theorem hasOwn_set {α : Type} (o : JSObject α) (key : String) (v : α)
    (hkey : key ≠ "__proto__") : hasOwn (set o key v) key = true := by
  rw [hasOwn_iff, map_fst_set o key v hkey]
  by_cases hk : hasOwn o key = true
  · rw [if_pos hk]; exact (hasOwn_iff o key).1 hk
  · rw [if_neg hk]; simp

theorem map_fst_delete {α : Type} (o : JSObject α) (key : String) :
    (delete o key).map Prod.fst = (o.map Prod.fst).filter (fun k => !(k == key)) := by
  unfold delete
  rw [List.filter_map]
  rfl

theorem hasOwn_delete {α : Type} (o : JSObject α) (key : String) :
    hasOwn (delete o key) key = false := by
  cases h : hasOwn (delete o key) key
  · rfl
  · rw [hasOwn_iff, map_fst_delete] at h
    simp at h

theorem length_delete {α : Type} (o : JSObject α) (key : String)
    (hnodup : (o.map Prod.fst).Nodup) (h : hasOwn o key = true) :
    (delete o key).length + 1 = o.length := by
  have h1 : (delete o key).length = ((o.map Prod.fst).filter (fun k => !(k == key))).length := by
    rw [← map_fst_delete, List.length_map]
  rw [hasOwn_iff] at h
  have h2 : (o.map Prod.fst).filter (fun k => !(k == key)) = (o.map Prod.fst).erase key := by
    rw [hnodup.erase_eq_filter]
    rfl
  rw [h1, h2, List.length_erase_of_mem h]
  have : 0 < (o.map Prod.fst).length := List.length_pos_of_mem h
  have hl : (o.map Prod.fst).length = o.length := List.length_map _ _
  omega

end JSObject

theorem foldl_push {α β : Type} (f : α → β) (xs : List α) (init : List β) :
    xs.foldl (fun acc x => acc ++ [f x]) init = init ++ xs.map f := by
  induction xs generalizing init with
  | nil => simp
  | cons x t ih => simp [ih]

theorem getServers_list {Channel : Type} (getDiscoveryUrls : Channel → List String)
    (self : OPCUADiscoveryServer) (channel : Channel) :
    (getServers getDiscoveryUrls self channel).1
      = { self.serverInfo with discoveryUrls := getDiscoveryUrls channel }
          :: (JSObject.values self.registered_servers).map (fun e => e.serverInfo) := by
  simp [getServers, foldl_push]

theorem getServers_state {Channel : Type} (getDiscoveryUrls : Channel → List String)
    (self : OPCUADiscoveryServer) (channel : Channel) :
    (getServers getDiscoveryUrls self channel).2
      = { self with
          serverInfo := { self.serverInfo with discoveryUrls := getDiscoveryUrls channel } } := by
  rfl

theorem request_passes {server : OPCUADiscoveryServer} {request : RegisterServerRequest}
    (htype : request.server.serverType = ApplicationType.SERVER ∨
      request.server.serverType = ApplicationType.CLIENTANDSERVER ∨
      request.server.serverType = ApplicationType.DISCOVERYSERVER)
    (hnames : request.server.serverNames ≠ [])
    (hurls : request.server.discoveryUrls ≠ []) :
    _on_RegisterServerRequest server request =
      ((if request.server.isOnline then
          { server with
            registered_servers :=
              JSObject.set server.registered_servers request.server.serverUri
                { server := request.server
                  serverInfo := prepareServerInfo request.server } }
        else if JSObject.hasOwn server.registered_servers request.server.serverUri then
          { server with
            registered_servers :=
              JSObject.delete server.registered_servers request.server.serverUri }
        else server), [RegisterServerResponse.default]) := by
  have hv := (isValide_iff _).2 htype
  simp [_on_RegisterServerRequest, hv, hnames, hurls]

/-- Registration of a key other than "__proto__": success, the key is an own
property afterwards, and the count grows by one exactly when the key is new. -/
theorem register_online_count (server : OPCUADiscoveryServer)
    (request : RegisterServerRequest)
    (htype : request.server.serverType = ApplicationType.SERVER ∨
      request.server.serverType = ApplicationType.CLIENTANDSERVER ∨
      request.server.serverType = ApplicationType.DISCOVERYSERVER)
    (hnames : request.server.serverNames ≠ [])
    (hurls : request.server.discoveryUrls ≠ [])
    (honline : request.server.isOnline = true)
    (hkey : request.server.serverUri ≠ "__proto__") :
    serviceResults (_on_RegisterServerRequest server request).2 = [StatusCode.Good] ∧
      request.server.serverUri
        ∈ JSObject.keys (_on_RegisterServerRequest server request).1.registered_servers ∧
      registeredServerCount (_on_RegisterServerRequest server request).1
        = if request.server.serverUri ∈ JSObject.keys server.registered_servers
          then registeredServerCount server else registeredServerCount server + 1 := by
  rw [request_passes htype hnames hurls]
  simp only [honline, if_true]
  refine ⟨rfl, ?_, ?_⟩
  · rw [← JSObject.hasOwn_iff_mem_keys]
    exact JSObject.hasOwn_set _ _ _ hkey
  · simp only [registeredServerCount, JSObject.length_keys,
      JSObject.length_set _ _ _ hkey, ← JSObject.hasOwn_iff_mem_keys]

theorem get?_set {α : Type} (o : JSObject α) (key : String) (v : α)
    (hkey : key ≠ "__proto__") : JSObject.get? (JSObject.set o key v) key = some v := by
  unfold JSObject.get? JSObject.set
  rw [if_neg hkey]
  by_cases h : JSObject.hasOwn o key = true
  · rw [if_pos h]
    unfold JSObject.hasOwn at h
    induction o with
    | nil => simp at h
    | cons p t ih =>
      by_cases hp : p.1 = key
      · simp [hp]
      · have ht : t.any (fun p => p.1 == key) = true := by simpa [hp] using h
        simpa [List.find?_cons, hp] using ih ht
  · rw [if_neg h]
    have h' : ∀ p ∈ o, ¬ (p.1 == key) = true := by
      intro p hp hk
      apply h
      unfold JSObject.hasOwn
      exact List.any_eq_true.2 ⟨p, hp, hk⟩
    rw [List.find?_append, List.find?_eq_none.2 h']
    simp

theorem get?_none_of_not_mem {α : Type} (o : JSObject α) (key : String)
    (h : key ∉ o.map Prod.fst) : JSObject.get? o key = none := by
  unfold JSObject.get?
  rw [Option.map_eq_none', List.find?_eq_none]
  intro p hp hk
  exact h (List.mem_map.2 ⟨p, hp, by simpa using hk⟩)

theorem wellFormed_nil {α : Type} : JSObject.WellFormed ([] : JSObject α) := by
  simp [JSObject.WellFormed]

theorem wellFormed_set {α : Type} (o : JSObject α) (key : String) (v : α)
    (hwf : JSObject.WellFormed o) : JSObject.WellFormed (JSObject.set o key v) := by
  by_cases hkey : key = "__proto__"
  · rw [hkey, JSObject.set_proto]; exact hwf
  · unfold JSObject.WellFormed
    rw [JSObject.map_fst_set o key v hkey]
    by_cases h : JSObject.hasOwn o key = true
    · rw [if_pos h]; exact hwf
    · rw [if_neg h]
      have hmem : key ∉ o.map Prod.fst := fun hm => h ((JSObject.hasOwn_iff o key).2 hm)
      refine ⟨?_, ?_⟩
      · rw [List.nodup_append]
        refine ⟨hwf.1, List.nodup_singleton key, ?_⟩
        intro k hk hk'
        rw [List.mem_singleton] at hk'
        exact hmem (hk' ▸ hk)
      · intro hm
        rcases List.mem_append.1 hm with hm | hm
        · exact hwf.2 hm
        · exact hkey (List.mem_singleton.1 hm).symm

theorem wellFormed_delete {α : Type} (o : JSObject α) (key : String)
    (hwf : JSObject.WellFormed o) : JSObject.WellFormed (JSObject.delete o key) := by
  unfold JSObject.WellFormed
  rw [JSObject.map_fst_delete]
  exact ⟨hwf.1.filter _, fun hm => hwf.2 (List.mem_filter.1 hm).1⟩

/-- The handler keeps the registry well formed, whatever the request is. -/
theorem wellFormed_on_RegisterServerRequest (server : OPCUADiscoveryServer)
    (request : RegisterServerRequest)
    (hwf : JSObject.WellFormed server.registered_servers) :
    JSObject.WellFormed (_on_RegisterServerRequest server request).1.registered_servers := by
  unfold _on_RegisterServerRequest
  split
  · exact hwf
  · split
    · exact hwf
    · split
      · exact hwf
      · dsimp only
        split
        · exact wellFormed_set _ _ _ hwf
        · split
          · exact wellFormed_delete _ _ hwf
          · exact hwf

/-! ## Validation failures -/

/-- C1: a request whose serverType is Client, or any value other than Server,
ClientAndServer and DiscoveryServer, gets exactly one response, with result
BadInvalidArgument, and the server (its registry included) is left as it was,
whatever the other fields of the request are. -/
theorem C1_invalid_server_type (server : OPCUADiscoveryServer)
    (request : RegisterServerRequest)
    (hSERVER : request.server.serverType ≠ ApplicationType.SERVER)
    (hCLIENTANDSERVER : request.server.serverType ≠ ApplicationType.CLIENTANDSERVER)
    (hDISCOVERYSERVER : request.server.serverType ≠ ApplicationType.DISCOVERYSERVER) :
    serviceResults (_on_RegisterServerRequest server request).2
        = [StatusCode.BadInvalidArgument] ∧
      (_on_RegisterServerRequest server request).1.registered_servers
        = server.registered_servers ∧
      (_on_RegisterServerRequest server request).1 = server := by
  have hv : _isValideServerType request.server.serverType = false := by
    cases h : _isValideServerType request.server.serverType
    · rfl
    · rcases (isValide_iff _).1 h with h1 | h1 | h1
      · exact absurd h1 hSERVER
      · exact absurd h1 hCLIENTANDSERVER
      · exact absurd h1 hDISCOVERYSERVER
  simp [_on_RegisterServerRequest, hv, serviceResults, sendError]

theorem C1_invalid_server_type_witness :
    clientRequest.server.serverType ≠ ApplicationType.SERVER ∧
      clientRequest.server.serverType ≠ ApplicationType.CLIENTANDSERVER ∧
      clientRequest.server.serverType ≠ ApplicationType.DISCOVERYSERVER ∧
      (serviceResults (_on_RegisterServerRequest oneServer clientRequest).2
          = [StatusCode.BadInvalidArgument] ∧
        (_on_RegisterServerRequest oneServer clientRequest).1.registered_servers
          = oneServer.registered_servers ∧
        (_on_RegisterServerRequest oneServer clientRequest).1 = oneServer) :=
  ⟨by decide, by decide, by decide,
    C1_invalid_server_type oneServer clientRequest (by decide) (by decide) (by decide)⟩

/-- C2: a request with a valid serverType and an empty serverNames gets exactly
one response, with result BadServerNameMissing, whether or not its discoveryUrls
is empty and whatever isOnline is, and the registry is left as it was. -/
theorem C2_server_name_missing (server : OPCUADiscoveryServer)
    (request : RegisterServerRequest)
    (htype : request.server.serverType = ApplicationType.SERVER ∨
      request.server.serverType = ApplicationType.CLIENTANDSERVER ∨
      request.server.serverType = ApplicationType.DISCOVERYSERVER)
    (hnames : request.server.serverNames = []) :
    serviceResults (_on_RegisterServerRequest server request).2
        = [StatusCode.BadServerNameMissing] ∧
      (_on_RegisterServerRequest server request).1.registered_servers
        = server.registered_servers ∧
      (_on_RegisterServerRequest server request).1 = server := by
  have hv := (isValide_iff _).2 htype
  simp [_on_RegisterServerRequest, hv, hnames, serviceResults, sendError]

theorem C2_server_name_missing_witness :
    (noNameRequest.server.serverType = ApplicationType.SERVER ∨
        noNameRequest.server.serverType = ApplicationType.CLIENTANDSERVER ∨
        noNameRequest.server.serverType = ApplicationType.DISCOVERYSERVER) ∧
      noNameRequest.server.serverNames = [] ∧
      (serviceResults (_on_RegisterServerRequest oneServer noNameRequest).2
          = [StatusCode.BadServerNameMissing] ∧
        (_on_RegisterServerRequest oneServer noNameRequest).1.registered_servers
          = oneServer.registered_servers ∧
        (_on_RegisterServerRequest oneServer noNameRequest).1 = oneServer) :=
  ⟨by decide, by decide,
    C2_server_name_missing oneServer noNameRequest (by decide) (by decide)⟩

/-- C3: a request with a valid serverType, a non-empty serverNames and an empty
discoveryUrls gets exactly one response, with result BadDiscoveryUrlMissing, for
either value of isOnline; the registry and registeredServerCount are unchanged. -/
theorem C3_discovery_url_missing (server : OPCUADiscoveryServer)
    (request : RegisterServerRequest)
    (htype : request.server.serverType = ApplicationType.SERVER ∨
      request.server.serverType = ApplicationType.CLIENTANDSERVER ∨
      request.server.serverType = ApplicationType.DISCOVERYSERVER)
    (hnames : request.server.serverNames ≠ [])
    (hurls : request.server.discoveryUrls = []) :
    serviceResults (_on_RegisterServerRequest server request).2
        = [StatusCode.BadDiscoveryUrlMissing] ∧
      (_on_RegisterServerRequest server request).1.registered_servers
        = server.registered_servers ∧
      registeredServerCount (_on_RegisterServerRequest server request).1
        = registeredServerCount server := by
  have hv := (isValide_iff _).2 htype
  simp [_on_RegisterServerRequest, hv, hnames, hurls, serviceResults, sendError]

theorem C3_discovery_url_missing_witness :
    (noUrlRequest.server.serverType = ApplicationType.SERVER ∨
        noUrlRequest.server.serverType = ApplicationType.CLIENTANDSERVER ∨
        noUrlRequest.server.serverType = ApplicationType.DISCOVERYSERVER) ∧
      noUrlRequest.server.serverNames ≠ [] ∧
      noUrlRequest.server.discoveryUrls = [] ∧
      (serviceResults (_on_RegisterServerRequest oneServer noUrlRequest).2
          = [StatusCode.BadDiscoveryUrlMissing] ∧
        (_on_RegisterServerRequest oneServer noUrlRequest).1.registered_servers
          = oneServer.registered_servers ∧
        registeredServerCount (_on_RegisterServerRequest oneServer noUrlRequest).1
          = registeredServerCount oneServer) :=
  ⟨by decide, by decide, by decide,
    C3_discovery_url_missing oneServer noUrlRequest (by decide) (by decide) (by decide)⟩

/-! ## Registration, unregistration and discovery queries -/

/-- C4: on the empty registry, the valid online registration whose serverUri is
"__proto__" is answered with the success response, yet afterwards the registry
has no key at all: serverUri was not a key before, is not a key after, and
registeredServerCount is 0 both before and after instead of growing by one. -/
theorem C4_proto_key_is_not_stored :
    (protoRequest.server.serverType = ApplicationType.SERVER ∧
        protoRequest.server.serverNames ≠ [] ∧
        protoRequest.server.discoveryUrls ≠ [] ∧
        protoRequest.server.isOnline = true) ∧
      serviceResults (_on_RegisterServerRequest blankServer protoRequest).2
        = [StatusCode.Good] ∧
      protoRequest.server.serverUri ∉ JSObject.keys blankServer.registered_servers ∧
      protoRequest.server.serverUri
        ∉ JSObject.keys (_on_RegisterServerRequest blankServer protoRequest).1.registered_servers ∧
      registeredServerCount blankServer = 0 ∧
      registeredServerCount (_on_RegisterServerRequest blankServer protoRequest).1 = 0 := by
  decide

/-- C5: after the valid online registration of "uri:MyServerURI" on the empty
registry, the serverInfo stored for that entry, which is also element 1 of the
getServers result, has an undefined applicationUri, not the request's serverUri. -/
theorem C5_applicationUri_is_undefined :
    (JSObject.get? (_on_RegisterServerRequest blankServer registerRequest).1.registered_servers
        registerRequest.server.serverUri).map (fun e => e.serverInfo.applicationUri)
      = some none ∧
    ((getServers sampleDiscoveryUrls
        (_on_RegisterServerRequest blankServer registerRequest).1 0).1.map
          (fun d => d.applicationUri))
      = [some "urn:host:NodeOPCUA-DiscoveryServer", none] ∧
    (none : Option String) ≠ some registerRequest.server.serverUri := by
  decide

/-- C6: for a request that passes validation with isOnline = true, on a
well-formed registry, the entry stored under serverUri after the call is the
request's server object, and its serverInfo has applicationType equal to the
request's serverType, applicationName equal to the first element of serverNames,
and productUri, gatewayServerUri and discoveryUrls equal to the request's. -/
theorem C6_projection_fields (server : OPCUADiscoveryServer)
    (request : RegisterServerRequest)
    (hwf : JSObject.WellFormed server.registered_servers)
    (htype : request.server.serverType = ApplicationType.SERVER ∨
      request.server.serverType = ApplicationType.CLIENTANDSERVER ∨
      request.server.serverType = ApplicationType.DISCOVERYSERVER)
    (hnames : request.server.serverNames ≠ [])
    (hurls : request.server.discoveryUrls ≠ [])
    (honline : request.server.isOnline = true) :
    ∀ e : RegisteredServerEntry,
      JSObject.get? (_on_RegisterServerRequest server request).1.registered_servers
          request.server.serverUri = some e →
        e.server = request.server ∧
        e.serverInfo.applicationType = request.server.serverType ∧
        (∃ name rest, request.server.serverNames = name :: rest ∧
          e.serverInfo.applicationName = some name) ∧
        e.serverInfo.productUri = request.server.productUri ∧
        e.serverInfo.gatewayServerUri = request.server.gatewayServerUri ∧
        e.serverInfo.discoveryUrls = request.server.discoveryUrls := by
  intro e he
  rw [request_passes htype hnames hurls] at he
  simp only [honline, if_true] at he
  by_cases hkey : request.server.serverUri = "__proto__"
  · rw [hkey, JSObject.set_proto, get?_none_of_not_mem _ _ hwf.2] at he
    exact absurd he (by simp)
  · rw [get?_set _ _ _ hkey] at he
    have he' := Option.some.inj he
    subst he'
    refine ⟨rfl, rfl, ?_, rfl, rfl, rfl⟩
    cases hn : request.server.serverNames with
    | nil => exact absurd hn hnames
    | cons name rest => exact ⟨name, rest, rfl, by simp [prepareServerInfo, hn]⟩

theorem C6_projection_fields_witness :
    JSObject.WellFormed blankServer.registered_servers ∧
      registerRequest.server.isOnline = true ∧
      JSObject.get? (_on_RegisterServerRequest blankServer registerRequest).1.registered_servers
          registerRequest.server.serverUri
        = some { server := registerRequest.server
                 serverInfo := prepareServerInfo registerRequest.server } ∧
      (prepareServerInfo registerRequest.server).applicationType = ApplicationType.SERVER ∧
      (prepareServerInfo registerRequest.server).applicationName
        = some { text := some "some name", locale := none } ∧
      (prepareServerInfo registerRequest.server).productUri = some "productUri" ∧
      (prepareServerInfo registerRequest.server).gatewayServerUri = none ∧
      (prepareServerInfo registerRequest.server).discoveryUrls = ["opc.tcp://host:1234"] :=
  have h := C6_projection_fields blankServer registerRequest (by decide) (by decide)
    (by decide) (by decide) (by decide)
    { server := registerRequest.server
      serverInfo := prepareServerInfo registerRequest.server } (by decide)
  ⟨by decide, by decide, by decide, h.2.1, by decide, h.2.2.2.1, h.2.2.2.2.1, h.2.2.2.2.2⟩

/-- C7: for a request that passes validation with isOnline = false, on a
well-formed registry, exactly one response is sent and it is the success
response; if serverUri was a key it is no longer one and registeredServerCount
has decreased by exactly 1; if it was not a key, the registry and
registeredServerCount are unchanged. -/
theorem C7_unregister (server : OPCUADiscoveryServer)
    (request : RegisterServerRequest)
    (hwf : JSObject.WellFormed server.registered_servers)
    (htype : request.server.serverType = ApplicationType.SERVER ∨
      request.server.serverType = ApplicationType.CLIENTANDSERVER ∨
      request.server.serverType = ApplicationType.DISCOVERYSERVER)
    (hnames : request.server.serverNames ≠ [])
    (hurls : request.server.discoveryUrls ≠ [])
    (hoffline : request.server.isOnline = false) :
    serviceResults (_on_RegisterServerRequest server request).2 = [StatusCode.Good] ∧
      (request.server.serverUri ∈ JSObject.keys server.registered_servers →
        request.server.serverUri
            ∉ JSObject.keys (_on_RegisterServerRequest server request).1.registered_servers ∧
          registeredServerCount (_on_RegisterServerRequest server request).1 + 1
            = registeredServerCount server) ∧
      (request.server.serverUri ∉ JSObject.keys server.registered_servers →
        (_on_RegisterServerRequest server request).1.registered_servers
            = server.registered_servers ∧
          registeredServerCount (_on_RegisterServerRequest server request).1
            = registeredServerCount server) := by
  rw [request_passes htype hnames hurls]
  simp only [hoffline, Bool.false_eq_true, if_false]
  refine ⟨rfl, ?_, ?_⟩
  · intro hmem
    have hown := (JSObject.hasOwn_iff_mem_keys _ _).2 hmem
    rw [if_pos hown]
    constructor
    · rw [← JSObject.hasOwn_iff_mem_keys, JSObject.hasOwn_delete]
      simp
    · simp only [registeredServerCount, JSObject.length_keys]
      exact JSObject.length_delete _ _ hwf.1 hown
  · intro hmem
    have hown : ¬ JSObject.hasOwn server.registered_servers request.server.serverUri = true :=
      fun h => hmem ((JSObject.hasOwn_iff_mem_keys _ _).1 h)
    rw [if_neg hown]
    exact ⟨rfl, rfl⟩

theorem C7_unregister_witness :
    JSObject.WellFormed oneServer.registered_servers ∧
      unregisterRequest.server.isOnline = false ∧
      unregisterRequest.server.serverUri ∈ JSObject.keys oneServer.registered_servers ∧
      registeredServerCount oneServer = 1 ∧
      serviceResults (_on_RegisterServerRequest oneServer unregisterRequest).2
        = [StatusCode.Good] ∧
      unregisterRequest.server.serverUri
        ∉ JSObject.keys (_on_RegisterServerRequest oneServer unregisterRequest).1.registered_servers ∧
      registeredServerCount (_on_RegisterServerRequest oneServer unregisterRequest).1 + 1
        = registeredServerCount oneServer :=
  have h := C7_unregister oneServer unregisterRequest (by decide) (by decide)
    (by decide) (by decide) (by decide)
  ⟨by decide, by decide, by decide, by decide, h.1, (h.2.1 (by decide)).1,
    (h.2.1 (by decide)).2⟩

/-- C8: for every server state, every `getDiscoveryUrls` and every channel
context, the list returned by getServers has length 1 + registeredServerCount. -/
theorem C8_getServers_length {Channel : Type} (getDiscoveryUrls : Channel → List String)
    (self : OPCUADiscoveryServer) (channel : Channel) :
    (getServers getDiscoveryUrls self channel).1.length = 1 + registeredServerCount self := by
  rw [getServers_list]
  simp only [List.length_cons, List.length_map, registeredServerCount, JSObject.length_keys,
    JSObject.length_values]
  omega

/-- C9: element 0 of getServers(c) is the service's own serverInfo with
discoveryUrls replaced by getDiscoveryUrls(c); it is the same whatever the
registry holds, and the same after an earlier getServers call made with any
other channel context. -/
theorem C9_getServers_head {Channel : Type} (getDiscoveryUrls : Channel → List String)
    (self : OPCUADiscoveryServer) (channel : Channel) :
    (getServers getDiscoveryUrls self channel).1.head?
        = some { self.serverInfo with discoveryUrls := getDiscoveryUrls channel } ∧
      (∀ registry : JSObject RegisteredServerEntry,
        (getServers getDiscoveryUrls { self with registered_servers := registry } channel).1.head?
          = (getServers getDiscoveryUrls self channel).1.head?) ∧
      (∀ earlier : Channel,
        (getServers getDiscoveryUrls (getServers getDiscoveryUrls self earlier).2 channel).1.head?
          = (getServers getDiscoveryUrls self channel).1.head?) := by
  refine ⟨?_, ?_, ?_⟩
  · rw [getServers_list]; rfl
  · intro registry
    rw [getServers_list, getServers_list]; rfl
  · intro earlier
    rw [getServers_list, getServers_list, getServers_state]

/-- C10: with one discovery URL per connection, element 0 of the getServers
result lists one discovery URL before the registration of a server that has one
discovery URL, still one (not two) after it, and one after that server has
unregistered: its length never grows with a registration. -/
theorem C10_own_discoveryUrls_do_not_grow :
    registerRequest.server.discoveryUrls.length = 1 ∧
      serviceResults (_on_RegisterServerRequest blankServer registerRequest).2
        = [StatusCode.Good] ∧
      (getServers sampleDiscoveryUrls blankServer 0).1.head?.map
          (fun d => d.discoveryUrls.length) = some 1 ∧
      (getServers sampleDiscoveryUrls
          (_on_RegisterServerRequest blankServer registerRequest).1 0).1.head?.map
          (fun d => d.discoveryUrls.length) = some 1 ∧
      (getServers sampleDiscoveryUrls
          (_on_RegisterServerRequest
            (_on_RegisterServerRequest blankServer registerRequest).1 unregisterRequest).1
          0).1.head?.map
          (fun d => d.discoveryUrls.length) = some 1 := by
  decide

/-! ## Facts used by the claims on sequences, order and frame -/

theorem passesValidation_iff (request : RegisterServerRequest) :
    passesValidation request = true ↔
      (request.server.serverType = ApplicationType.SERVER ∨
        request.server.serverType = ApplicationType.CLIENTANDSERVER ∨
        request.server.serverType = ApplicationType.DISCOVERYSERVER) ∧
      request.server.serverNames ≠ [] ∧ request.server.discoveryUrls ≠ [] := by
  unfold passesValidation
  rw [Bool.and_eq_true, Bool.and_eq_true, isValide_iff]
  simp [and_assoc]

/-- The registry after the handler has run, in one formula: unchanged when a
validation step fails, an assignment when the request is online, a removal
otherwise. -/
theorem registry_after (server : OPCUADiscoveryServer) (request : RegisterServerRequest) :
    (_on_RegisterServerRequest server request).1.registered_servers =
      if passesValidation request then
        if request.server.isOnline then
          JSObject.set server.registered_servers request.server.serverUri (entryOf request)
        else JSObject.delete server.registered_servers request.server.serverUri
      else server.registered_servers := by
  by_cases hv : passesValidation request = true
  · rw [if_pos hv]
    obtain ⟨htype, hnames, hurls⟩ := (passesValidation_iff request).1 hv
    rw [request_passes htype hnames hurls]
    cases hon : request.server.isOnline
    · by_cases hown : JSObject.hasOwn server.registered_servers request.server.serverUri = true
      · simp [hown]
      · simp only [hown, if_false, Bool.false_eq_true]
        rw [JSObject.delete_of_not_hasOwn _ _ (by simpa using hown)]
    · simp [entryOf]
  · rw [if_neg hv]
    have hv' : passesValidation request = false := by simpa using hv
    unfold passesValidation at hv'
    unfold _on_RegisterServerRequest
    by_cases h1 : _isValideServerType request.server.serverType = true
    · by_cases h2 : request.server.serverNames.length = 0
      · simp [h1, h2]
      · by_cases h3 : request.server.discoveryUrls.length = 0
        · simp [h1, h2, h3]
        · simp [h1, h2, h3] at hv'
    · simp [h1]

/-- The server's own description is never changed by the handler. -/
theorem serverInfo_after (server : OPCUADiscoveryServer) (request : RegisterServerRequest) :
    (_on_RegisterServerRequest server request).1.serverInfo = server.serverInfo := by
  unfold _on_RegisterServerRequest
  split
  · rfl
  · split
    · rfl
    · split
      · rfl
      · dsimp only
        split
        · rfl
        · split <;> rfl

/-- The responses sent by the handler: always exactly one, whose result is the
code of the first validation step that fails, or Good. -/
theorem responses_after (server : OPCUADiscoveryServer) (request : RegisterServerRequest) :
    serviceResults (_on_RegisterServerRequest server request).2 =
      [if _isValideServerType request.server.serverType = false then
          StatusCode.BadInvalidArgument
        else if request.server.serverNames = [] then StatusCode.BadServerNameMissing
        else if request.server.discoveryUrls = [] then StatusCode.BadDiscoveryUrlMissing
        else StatusCode.Good] := by
  unfold _on_RegisterServerRequest
  by_cases h1 : _isValideServerType request.server.serverType = true
  · by_cases h2 : request.server.serverNames = []
    · simp [h1, h2, serviceResults, sendError]
    · by_cases h3 : request.server.discoveryUrls = []
      · simp [h1, h2, h3, serviceResults, sendError]
      · simp [h1, h2, h3, serviceResults, RegisterServerResponse.default]
  · simp [h1, serviceResults, sendError]

theorem server_ext {a b : OPCUADiscoveryServer} (h1 : a.serverInfo = b.serverInfo)
    (h2 : a.registered_servers = b.registered_servers) : a = b := by
  cases a; cases b; simp_all

namespace JSObject

theorem map_replace_of_not_hasOwn {α : Type} (o : JSObject α) (key : String) (v : α)
    (h : hasOwn o key = false) :
    o.map (fun p => if p.1 == key then (p.1, v) else p) = o := by
  have hmem : key ∉ o.map Prod.fst := fun hm => by
    have := (hasOwn_iff o key).2 hm
    simp [h] at this
  conv_rhs => rw [← List.map_id o]
  apply List.map_congr_left
  intro p hp
  have hne : p.1 ≠ key := fun e => hmem (e ▸ List.mem_map_of_mem Prod.fst hp)
  simp [hne]

theorem hasOwn_append_singleton {α : Type} (o : JSObject α) (key : String) (v : α) :
    hasOwn (o ++ [(key, v)]) key = true := by
  rw [hasOwn_iff]; simp

theorem set_of_hasOwn {α : Type} (o : JSObject α) (key : String) (v : α)
    (hkey : key ≠ "__proto__") (h : hasOwn o key = true) :
    set o key v = o.map (fun p => if p.1 == key then (p.1, v) else p) := by
  unfold set
  rw [if_neg hkey, if_pos h]

theorem set_of_not_hasOwn {α : Type} (o : JSObject α) (key : String) (v : α)
    (hkey : key ≠ "__proto__") (h : hasOwn o key = false) :
    set o key v = o ++ [(key, v)] := by
  unfold set
  rw [if_neg hkey, if_neg (by simp [h])]

/-- Assigning twice to the same key is the same as the second assignment alone. -/
theorem set_set {α : Type} (o : JSObject α) (key : String) (v w : α) :
    set (set o key v) key w = set o key w := by
  by_cases hkey : key = "__proto__"
  · subst hkey; rw [set_proto, set_proto, set_proto]
  · rw [set_of_hasOwn (set o key v) key w hkey (hasOwn_set o key v hkey)]
    by_cases h : hasOwn o key = true
    · rw [set_of_hasOwn o key v hkey h, set_of_hasOwn o key w hkey h, List.map_map]
      apply List.map_congr_left
      intro p _
      by_cases hp : p.1 = key <;> simp [hp]
    · have h' : hasOwn o key = false := by simpa using h
      rw [set_of_not_hasOwn o key v hkey h', set_of_not_hasOwn o key w hkey h',
        List.map_append, map_replace_of_not_hasOwn o key w h']
      simp

/-- A removal after an assignment to the same key is the removal alone. -/
theorem delete_set {α : Type} (o : JSObject α) (key : String) (v : α) :
    delete (set o key v) key = delete o key := by
  by_cases hkey : key = "__proto__"
  · subst hkey; rw [set_proto]
  · unfold set
    rw [if_neg hkey]
    by_cases h : hasOwn o key = true
    · rw [if_pos h]
      unfold delete
      rw [List.filter_map]
      have : ((fun p : String × α => !(p.1 == key)) ∘ fun p => if p.1 == key then (p.1, v) else p)
          = fun p => !(p.1 == key) := by
        funext p
        by_cases hp : p.1 = key <;> simp [hp]
      rw [this]
      conv_rhs => rw [← List.map_id (List.filter _ o)]
      apply List.map_congr_left
      intro p hp
      have := (List.mem_filter.1 hp).2
      have hne : p.1 ≠ key := by simpa using this
      simp [hne]
    · rw [if_neg h]
      unfold delete
      rw [List.filter_append]
      simp

theorem delete_delete {α : Type} (o : JSObject α) (key : String) :
    delete (delete o key) key = delete o key := by
  unfold delete
  rw [List.filter_filter]
  simp

theorem get?_delete_ne {α : Type} (o : JSObject α) (key other : String)
    (hne : other ≠ key) : get? (delete o key) other = get? o other := by
  unfold get? delete
  congr 1
  induction o with
  | nil => rfl
  | cons p t ih =>
    by_cases hp : p.1 = key
    · have hpo : ¬ p.1 = other := fun e => hne (e ▸ hp)
      have h1 : (!(p.1 == key)) = false := by simp [hp]
      have h2 : (p.1 == other) = false := by simp [hpo]
      rw [List.filter_cons, if_neg (by simp [h1]), List.find?_cons, h2]
      exact ih
    · have h1 : (!(p.1 == key)) = true := by simp [hp]
      rw [List.filter_cons, if_pos h1, List.find?_cons, List.find?_cons]
      cases (p.1 == other)
      · exact ih
      · rfl

end JSObject

namespace JSObject

theorem orderedInsert_of_forall_le {β : Type} (a : Nat × β) (l : List (Nat × β))
    (h : ∀ c ∈ l, a.1 ≤ c.1) :
    l.orderedInsert (fun x y => x.1 ≤ y.1) a = a :: l := by
  cases l with
  | nil => rfl
  | cons b t =>
    have hb : a.1 ≤ b.1 := h b (List.mem_cons_self b t)
    simp [List.orderedInsert, hb]

theorem orderedInsert_filter {β : Type} (p : Nat × β → Bool) (a : Nat × β) :
    ∀ l : List (Nat × β), l.Sorted (fun x y => x.1 ≤ y.1) →
      (l.orderedInsert (fun x y => x.1 ≤ y.1) a).filter p
        = if p a then (l.filter p).orderedInsert (fun x y => x.1 ≤ y.1) a
          else l.filter p := by
  intro l
  induction l with
  | nil =>
    intro _
    by_cases hpa : p a = true <;> simp [hpa]
  | cons b t ih =>
    intro hs
    have hbt : ∀ c ∈ t, b.1 ≤ c.1 := (List.sorted_cons.1 hs).1
    have ht := ih (List.sorted_cons.1 hs).2
    by_cases hab : a.1 ≤ b.1
    · have hins : (b :: t).orderedInsert (fun x y => x.1 ≤ y.1) a = a :: b :: t := by
        simp [List.orderedInsert, hab]
      rw [hins]
      by_cases hpa : p a = true
      · rw [if_pos hpa, List.filter_cons, if_pos hpa]
        rw [orderedInsert_of_forall_le]
        intro c hc
        have hc' : c ∈ b :: t := (List.mem_filter.1 hc).1
        rcases List.mem_cons.1 hc' with hcb | hct
        · rw [hcb]; exact hab
        · exact Nat.le_trans hab (hbt c hct)
      · rw [if_neg hpa, List.filter_cons, if_neg hpa]
    · have hins : (b :: t).orderedInsert (fun x y => x.1 ≤ y.1) a
          = b :: t.orderedInsert (fun x y => x.1 ≤ y.1) a := by
        simp [List.orderedInsert, hab]
      rw [hins]
      by_cases hpb : p b = true
      · rw [List.filter_cons, if_pos hpb, ht, List.filter_cons, if_pos hpb]
        by_cases hpa : p a = true
        · rw [if_pos hpa, if_pos hpa]
          simp [List.orderedInsert, hab]
        · rw [if_neg hpa, if_neg hpa]
      · rw [List.filter_cons, if_neg hpb, ht, List.filter_cons, if_neg hpb]

theorem sorted_insertionSort_fst {β : Type} (l : List (Nat × β)) :
    (l.insertionSort (fun x y => x.1 ≤ y.1)).Sorted (fun x y => x.1 ≤ y.1) := by
  haveI : IsTotal (Nat × β) (fun x y => x.1 ≤ y.1) := ⟨fun x y => Nat.le_total x.1 y.1⟩
  haveI : IsTrans (Nat × β) (fun x y => x.1 ≤ y.1) := ⟨fun _ _ _ h1 h2 => Nat.le_trans h1 h2⟩
  exact List.sorted_insertionSort _ l

theorem insertionSort_filter {β : Type} (p : Nat × β → Bool) (l : List (Nat × β)) :
    (l.insertionSort (fun x y => x.1 ≤ y.1)).filter p
      = (l.filter p).insertionSort (fun x y => x.1 ≤ y.1) := by
  induction l with
  | nil => rfl
  | cons a t ih =>
    have hcons : (a :: t).insertionSort (fun x y => x.1 ≤ y.1)
        = (t.insertionSort (fun x y => x.1 ≤ y.1)).orderedInsert (fun x y => x.1 ≤ y.1) a := rfl
    rw [hcons, orderedInsert_filter p a _ (sorted_insertionSort_fst t), ih, List.filter_cons]
    by_cases hpa : p a = true
    · rw [if_pos hpa, if_pos hpa]; rfl
    · rw [if_neg hpa, if_neg hpa]

theorem filterMap_index_filter {α : Type} (q : String → Bool) (o : JSObject α) :
    (o.filterMap (fun p => (arrayIndex? p.1).map (fun n => (n, p)))).filter
        (fun x => q x.2.1)
      = (o.filter (fun p => q p.1)).filterMap
          (fun p => (arrayIndex? p.1).map (fun n => (n, p))) := by
  induction o with
  | nil => rfl
  | cons p t ih =>
    by_cases hq : q p.1 = true
    · cases hi : arrayIndex? p.1 with
      | none => simp [List.filterMap_cons, List.filter_cons, hi, hq, ih]
      | some n => simp [List.filterMap_cons, List.filter_cons, hi, hq, ih]
    · cases hi : arrayIndex? p.1 with
      | none => simp [List.filterMap_cons, List.filter_cons, hi, hq, ih]
      | some n => simp [List.filterMap_cons, List.filter_cons, hi, hq, ih]

/-- Enumeration commutes with dropping properties by key: the relative order of
the properties that are kept does not depend on the ones that are dropped. -/
theorem enumerate_filter {α : Type} (q : String → Bool) (o : JSObject α) :
    (enumerate o).filter (fun p => q p.1) = enumerate (o.filter (fun p => q p.1)) := by
  unfold enumerate
  rw [List.filter_append, List.filter_map]
  have h1 : ((fun p : String × α => q p.1) ∘ Prod.snd)
      = fun x : Nat × (String × α) => q x.2.1 := rfl
  rw [h1, insertionSort_filter, filterMap_index_filter, List.filter_filter, List.filter_filter]
  congr 2
  funext p
  exact Bool.and_comm _ _

theorem enumerate_delete {α : Type} (o : JSObject α) (key : String) :
    enumerate (delete o key) = delete (enumerate o) key := by
  unfold delete
  exact (enumerate_filter (fun k => !(k == key)) o).symm

theorem filterMap_index_map {α : Type} (f : String × α → String × α)
    (hf : ∀ p, (f p).1 = p.1) (o : JSObject α) :
    (o.map f).filterMap (fun p => (arrayIndex? p.1).map (fun n => (n, p)))
      = (o.filterMap (fun p => (arrayIndex? p.1).map (fun n => (n, p)))).map
          (fun x => (x.1, f x.2)) := by
  induction o with
  | nil => rfl
  | cons p t ih =>
    cases hi : arrayIndex? p.1 with
    | none => simp [List.filterMap_cons, hf, hi, ih]
    | some n => simp [List.filterMap_cons, hf, hi, ih]

/-- Enumeration commutes with a change of values that keeps every key: the
enumeration order is a function of the keys and their creation order only. -/
theorem enumerate_map {α : Type} (f : String × α → String × α)
    (hf : ∀ p, (f p).1 = p.1) (o : JSObject α) :
    enumerate (o.map f) = (enumerate o).map f := by
  unfold enumerate
  rw [filterMap_index_map f hf, List.map_append, List.filter_map]
  have h1 : ((fun p : String × α => (arrayIndex? p.1).isNone) ∘ f)
      = fun p => (arrayIndex? p.1).isNone := by
    funext p
    simp [hf]
  rw [h1]
  congr 1
  rw [← List.map_insertionSort (fun x y : Nat × (String × α) => x.1 ≤ y.1)
    (fun x y : Nat × (String × α) => x.1 ≤ y.1) (fun x => (x.1, f x.2)) _
    (fun _ _ _ _ => Iff.rfl)]
  rw [List.map_map, List.map_map]
  rfl

/-- Without array-index keys the enumeration order is the creation order. -/
theorem enumerate_eq_self {α : Type} (o : JSObject α)
    (h : ∀ p ∈ o, arrayIndex? p.1 = none) : enumerate o = o := by
  unfold enumerate
  have h1 : o.filterMap (fun p => (arrayIndex? p.1).map (fun n => (n, p))) = [] := by
    rw [List.filterMap_eq_nil_iff]
    intro p hp
    simp [h p hp]
  have h2 : o.filter (fun p => (arrayIndex? p.1).isNone) = o := by
    rw [List.filter_eq_self]
    intro p hp
    simp [h p hp]
  rw [h1, h2]
  rfl

theorem forall_mem_set {α : Type} (Q : String × α → Prop) (o : JSObject α) (key : String)
    (v : α) (ho : ∀ p ∈ o, Q p) (hv : Q (key, v)) : ∀ p ∈ set o key v, Q p := by
  unfold set
  intro p hp
  split at hp
  · exact ho p hp
  · split at hp
    · rcases List.mem_map.1 hp with ⟨x, hx, rfl⟩
      by_cases hk : x.1 = key
      · simp only [hk, beq_self_eq_true, if_true]; exact hv
      · have : (x.1 == key) = false := by simp [hk]
        simp only [this, Bool.false_eq_true, if_false]; exact ho x hx
    · rcases List.mem_append.1 hp with h | h
      · exact ho p h
      · rw [List.mem_singleton.1 h]; exact hv

theorem forall_mem_delete {α : Type} (Q : String × α → Prop) (o : JSObject α)
    (key : String) (ho : ∀ p ∈ o, Q p) : ∀ p ∈ delete o key, Q p := by
  intro p hp
  exact ho p (List.mem_filter.1 hp).1

end JSObject

theorem handleAll_cons (server : OPCUADiscoveryServer) (request : RegisterServerRequest)
    (requests : List RegisterServerRequest) :
    handleAll server (request :: requests)
      = handleAll (_on_RegisterServerRequest server request).1 requests := rfl

theorem handleAll_serverInfo (server : OPCUADiscoveryServer)
    (requests : List RegisterServerRequest) :
    (handleAll server requests).serverInfo = server.serverInfo := by
  induction requests generalizing server with
  | nil => rfl
  | cons r rs ih => rw [handleAll_cons, ih, serverInfo_after]

/-- Registrations of new, pairwise distinct keys other than "__proto__" append
their entries to the store in the order of the requests. -/
theorem handleAll_registry (requests : List RegisterServerRequest) :
    ∀ server : OPCUADiscoveryServer,
      (∀ r ∈ requests, passesValidation r = true ∧ r.server.isOnline = true ∧
        r.server.serverUri ≠ "__proto__" ∧
        JSObject.hasOwn server.registered_servers r.server.serverUri = false) →
      (requests.map (fun r => r.server.serverUri)).Nodup →
      (handleAll server requests).registered_servers
        = server.registered_servers
            ++ requests.map (fun r => (r.server.serverUri, entryOf r)) := by
  induction requests with
  | nil => intro server _ _; simp [handleAll]
  | cons r rs ih =>
    intro server h hnodup
    obtain ⟨hv, hon, hkey, hown⟩ := h r (List.mem_cons_self r rs)
    have hreg : (_on_RegisterServerRequest server r).1.registered_servers
        = server.registered_servers ++ [(r.server.serverUri, entryOf r)] := by
      rw [registry_after, if_pos hv, if_pos hon, JSObject.set_of_not_hasOwn _ _ _ hkey hown]
    rw [List.map_cons, List.nodup_cons] at hnodup
    rw [handleAll_cons, ih _ _ hnodup.2, hreg]
    · simp
    · intro r' hr'
      obtain ⟨hv', hon', hkey', hown'⟩ := h r' (List.mem_cons_of_mem r hr')
      refine ⟨hv', hon', hkey', ?_⟩
      rw [hreg]
      cases hc : JSObject.hasOwn (server.registered_servers ++ [(r.server.serverUri, entryOf r)])
          r'.server.serverUri
      · rfl
      · rw [JSObject.hasOwn_iff, List.map_append, List.mem_append] at hc
        rcases hc with hc | hc
        · have := (JSObject.hasOwn_iff _ _).2 hc
          rw [hown'] at this
          exact absurd this (by simp)
        · have he : r'.server.serverUri = r.server.serverUri := by simpa using hc
          exact absurd (he ▸ List.mem_map_of_mem (fun r => r.server.serverUri) hr') hnodup.1

/-- A property of the registry that holds initially and is kept by every call of
the handler holds after any sequence of requests. -/
theorem handleAll_invariant (P : JSObject RegisteredServerEntry → Prop)
    (hstep : ∀ (s : OPCUADiscoveryServer) (r : RegisterServerRequest),
      P s.registered_servers → P (_on_RegisterServerRequest s r).1.registered_servers)
    (requests : List RegisterServerRequest) :
    ∀ server : OPCUADiscoveryServer, P server.registered_servers →
      P (handleAll server requests).registered_servers := by
  induction requests with
  | nil => intro server h; exact h
  | cons r rs ih =>
    intro server h
    rw [handleAll_cons]
    exact ih _ (hstep server r h)

/-- Whatever the request, the handler changes no property stored under another
key: without the request's key, the store is the same before and after. -/
theorem delete_registry_after (server : OPCUADiscoveryServer) (request : RegisterServerRequest) :
    JSObject.delete (_on_RegisterServerRequest server request).1.registered_servers
        request.server.serverUri
      = JSObject.delete server.registered_servers request.server.serverUri := by
  rw [registry_after]
  split
  · split
    · exact JSObject.delete_set _ _ _
    · exact JSObject.delete_delete _ _
  · rfl

theorem mem_of_get? {α : Type} (o : JSObject α) (key : String) (v : α)
    (h : JSObject.get? o key = some v) : (key, v) ∈ o := by
  unfold JSObject.get? at h
  rcases Option.map_eq_some'.1 h with ⟨p, hp, hv⟩
  have hmem := List.mem_of_find?_eq_some hp
  have hk : p.1 = key := by simpa using List.find?_some hp
  have : p = (key, v) := by
    cases p
    simp_all
  exact this ▸ hmem

/-- One call of the handler keeps the property "every stored entry passed
validation, is online, and is stored under its own serverUri". -/
theorem entries_valid_step (s : OPCUADiscoveryServer) (r : RegisterServerRequest)
    (h : ∀ p ∈ s.registered_servers,
      passesValidation { server := p.2.server } = true ∧ p.2.server.isOnline = true ∧
        p.2.server.serverUri = p.1 ∧ p.2.serverInfo = prepareServerInfo p.2.server) :
    ∀ p ∈ (_on_RegisterServerRequest s r).1.registered_servers,
      passesValidation { server := p.2.server } = true ∧ p.2.server.isOnline = true ∧
        p.2.server.serverUri = p.1 ∧ p.2.serverInfo = prepareServerInfo p.2.server := by
  rw [registry_after]
  by_cases hv : passesValidation r = true
  · rw [if_pos hv]
    by_cases hon : r.server.isOnline = true
    · rw [if_pos hon]
      exact JSObject.forall_mem_set _ _ _ _ h ⟨hv, hon, rfl, rfl⟩
    · rw [if_neg hon]
      exact JSObject.forall_mem_delete _ _ _ h
  · rw [if_neg hv]
    exact h

/-- Registration followed by unregistration of a key that was not in the
registry: both calls succeed and the server is back in its original state. -/
theorem register_unregister_round_trip (server : OPCUADiscoveryServer)
    (request : RegisterServerRequest)
    (hv : passesValidation request = true)
    (hown : JSObject.hasOwn server.registered_servers request.server.serverUri = false) :
    serviceResults (_on_RegisterServerRequest server
        { server := { request.server with isOnline := true } }).2 = [StatusCode.Good] ∧
      serviceResults (_on_RegisterServerRequest
        (_on_RegisterServerRequest server
          { server := { request.server with isOnline := true } }).1
        { server := { request.server with isOnline := false } }).2 = [StatusCode.Good] ∧
      (_on_RegisterServerRequest
        (_on_RegisterServerRequest server
          { server := { request.server with isOnline := true } }).1
        { server := { request.server with isOnline := false } }).1 = server := by
  obtain ⟨htype, hnames, hurls⟩ := (passesValidation_iff request).1 hv
  have hvon : passesValidation { server := { request.server with isOnline := true } } = true :=
    hv
  have hvoff : passesValidation { server := { request.server with isOnline := false } } = true :=
    hv
  have hval : _isValideServerType request.server.serverType = true := (isValide_iff _).2 htype
  refine ⟨?_, ?_, ?_⟩
  · rw [responses_after]
    simp [hval, hnames, hurls]
  · rw [responses_after]
    simp [hval, hnames, hurls]
  · apply server_ext
    · rw [serverInfo_after, serverInfo_after]
    · rw [registry_after, if_pos hvoff, registry_after, if_pos hvon]
      simp only [Bool.false_eq_true, if_false, if_true]
      rw [JSObject.delete_set, JSObject.delete_of_not_hasOwn _ _ hown]

/-! ## Array-index keys and the order of a registry built by registrations -/

namespace JSObject

theorem digit_lt_ten (c : Char) (h : c.isDigit = true) : c.toNat - 48 < 10 := by
  simp only [Char.isDigit, Bool.and_eq_true, decide_eq_true_eq] at h
  have h2 : c.val ≤ 57 := h.2
  have h3 : c.toNat = c.val.toNat := rfl
  have h4 : c.val.toNat ≤ 57 := h2
  omega

theorem digit_inj (c d : Char) (hc : c.isDigit = true) (hd : d.isDigit = true)
    (h : c.toNat - 48 = d.toNat - 48) : c = d := by
  simp only [Char.isDigit, Bool.and_eq_true, decide_eq_true_eq] at hc hd
  have hc1 : (48 : UInt32) ≤ c.val := hc.1
  have hd1 : (48 : UInt32) ≤ d.val := hd.1
  have hc2 : (48 : Nat) ≤ c.val.toNat := hc1
  have hd2 : (48 : Nat) ≤ d.val.toNat := hd1
  have hc3 : c.toNat = c.val.toNat := rfl
  have hd3 : d.toNat = d.val.toNat := rfl
  have h5 : c.val.toNat = d.val.toNat := by omega
  exact Char.ext (UInt32.ext h5)

theorem digitsValue_append (cs : List Char) (c : Char) :
    digitsValue (cs ++ [c]) = 10 * digitsValue cs + (c.toNat - 48) := by
  simp [digitsValue, List.foldl_append]

theorem digitsValue_eq_ofDigits (cs : List Char) :
    digitsValue cs = Nat.ofDigits 10 ((cs.map (fun c => c.toNat - 48)).reverse) := by
  induction cs using List.reverseRecOn with
  | nil => rfl
  | append_singleton cs c ih =>
    rw [digitsValue_append, List.map_append, List.reverse_append, ih]
    simp [Nat.ofDigits_cons]
    omega

theorem arrayIndex?_eq_some (key : String) (n : Nat) (h : arrayIndex? key = some n) :
    key.toList ≠ [] ∧ (∀ c ∈ key.toList, c.isDigit = true) ∧
      (key.toList.head? = some '0' → key.toList.length = 1) ∧
      digitsValue key.toList = n := by
  unfold arrayIndex? at h
  simp only at h
  split at h
  · exact absurd h (by simp)
  · split at h
    · exact absurd h (by simp)
    · split at h
      · exact absurd h (by simp)
      · split at h
        · rename_i h1 h2 h3 _
          refine ⟨by simpa using h1, by simpa using h2, ?_, by simpa using h⟩
          intro h0
          by_contra hlen
          exact h3 ⟨h0, hlen⟩
        · exact absurd h (by simp)

theorem map_digit_inj : ∀ (cs ds : List Char), (∀ c ∈ cs, c.isDigit = true) →
    (∀ c ∈ ds, c.isDigit = true) →
    cs.map (fun c => c.toNat - 48) = ds.map (fun c => c.toNat - 48) → cs = ds
  | [], [], _, _, _ => rfl
  | [], _ :: _, _, _, h => by simp at h
  | _ :: _, [], _, _, h => by simp at h
  | c :: cs, d :: ds, hc, hd, h => by
    simp only [List.map_cons, List.cons.injEq] at h
    have e1 : c = d := digit_inj c d (hc c (List.mem_cons_self c cs))
      (hd d (List.mem_cons_self d ds)) h.1
    have e2 : cs = ds := map_digit_inj cs ds (fun x hx => hc x (List.mem_cons_of_mem c hx))
      (fun x hx => hd x (List.mem_cons_of_mem d hx)) h.2
    rw [e1, e2]

theorem digits_digitsValue (cs : List Char) (hne : cs ≠ [])
    (hd : ∀ c ∈ cs, c.isDigit = true) (h0 : cs.head? ≠ some '0') :
    Nat.digits 10 (digitsValue cs) = (cs.map (fun c => c.toNat - 48)).reverse := by
  rw [digitsValue_eq_ofDigits]
  apply Nat.digits_ofDigits 10 (by norm_num)
  · intro l hl
    rw [List.mem_reverse, List.mem_map] at hl
    obtain ⟨c, hc, rfl⟩ := hl
    exact digit_lt_ten c (hd c hc)
  · intro hL
    cases cs with
    | nil => exact absurd rfl hne
    | cons c t =>
      have hlast : ((List.map (fun c => c.toNat - 48) (c :: t)).reverse).getLast hL
          = c.toNat - 48 := by
        simp
      rw [hlast]
      intro hz
      apply h0
      have hc := hd c (List.mem_cons_self c t)
      have : c = '0' := digit_inj c '0' hc (by decide) (by rw [hz]; rfl)
      simp [this]

/-- Two property keys that denote the same array index are the same string. -/
theorem arrayIndex?_inj (k1 k2 : String) (n : Nat) (h1 : arrayIndex? k1 = some n)
    (h2 : arrayIndex? k2 = some n) : k1 = k2 := by
  obtain ⟨hne1, hd1, hz1, hv1⟩ := arrayIndex?_eq_some k1 n h1
  obtain ⟨hne2, hd2, hz2, hv2⟩ := arrayIndex?_eq_some k2 n h2
  have zero : ∀ cs : List Char, cs.head? = some '0' → cs.length = 1 → cs = ['0'] := by
    intro cs hh hl
    cases cs with
    | nil => simp at hl
    | cons c t =>
      cases t with
      | nil => simp at hh; rw [hh]
      | cons _ _ => simp at hl
  have nonzero : ∀ cs : List Char, cs ≠ [] → (∀ c ∈ cs, c.isDigit = true) →
      cs.head? ≠ some '0' → digitsValue cs ≠ 0 := by
    intro cs hne hd h0 hv
    have := digits_digitsValue cs hne hd h0
    rw [hv, Nat.digits_zero] at this
    have : cs.map (fun c => c.toNat - 48) = [] := by
      have h' := congrArg List.reverse this
      simpa using h'.symm
    exact hne (List.map_eq_nil_iff.1 this)
  have hlist : k1.toList = k2.toList := by
    by_cases a : k1.toList.head? = some '0'
    · have e1 := zero _ a (hz1 a)
      have hn : n = 0 := by rw [← hv1, e1]; rfl
      by_cases b : k2.toList.head? = some '0'
      · rw [e1, zero _ b (hz2 b)]
      · exact absurd (hv2.trans hn) (nonzero _ hne2 hd2 b)
    · by_cases b : k2.toList.head? = some '0'
      · have e2 := zero _ b (hz2 b)
        have hn : n = 0 := by rw [← hv2, e2]; rfl
        exact absurd (hv1.trans hn) (nonzero _ hne1 hd1 a)
      · have r1 := digits_digitsValue _ hne1 hd1 a
        have r2 := digits_digitsValue _ hne2 hd2 b
        rw [hv1] at r1
        rw [hv2] at r2
        have := List.reverse_injective (r1.symm.trans r2)
        exact map_digit_inj _ _ hd1 hd2 this
  exact String.ext hlist

end JSObject

theorem indexed_requests_map_snd (requests : List RegisterServerRequest) :
    (requests.filterMap
        (fun r => (JSObject.arrayIndex? r.server.serverUri).map (fun n => (n, r)))).map Prod.snd
      = requests.filter (fun r => (JSObject.arrayIndex? r.server.serverUri).isSome) := by
  induction requests with
  | nil => rfl
  | cons r t ih =>
    cases h : JSObject.arrayIndex? r.server.serverUri with
    | none => simp [List.filterMap_cons, List.filter_cons, h, ih]
    | some n => simp [List.filterMap_cons, List.filter_cons, h, ih]

theorem indexed_requests_registry (requests : List RegisterServerRequest) :
    (requests.map (fun r => (r.server.serverUri, entryOf r))).filterMap
        (fun p => (JSObject.arrayIndex? p.1).map (fun n => (n, p)))
      = (requests.filterMap
          (fun r => (JSObject.arrayIndex? r.server.serverUri).map (fun n => (n, r)))).map
          (fun x => (x.1, (x.2.server.serverUri, entryOf x.2))) := by
  induction requests with
  | nil => rfl
  | cons r t ih =>
    cases h : JSObject.arrayIndex? r.server.serverUri with
    | none => simp [List.filterMap_cons, h, ih]
    | some n => simp [List.filterMap_cons, h, ih]

/-- The enumeration of a store that holds one entry per request, created in the
order of the requests: the requests with an array-index serverUri sorted by that
index, then the other requests in their order. -/
theorem enumerate_requests (requests : List RegisterServerRequest) :
    JSObject.enumerate (requests.map (fun r => (r.server.serverUri, entryOf r)))
      = (((requests.filterMap
              (fun r => (JSObject.arrayIndex? r.server.serverUri).map (fun n => (n, r)))).insertionSort
              (fun x y => x.1 ≤ y.1)).map Prod.snd
          ++ requests.filter (fun r => (JSObject.arrayIndex? r.server.serverUri).isNone)).map
          (fun r => (r.server.serverUri, entryOf r)) := by
  unfold JSObject.enumerate
  rw [indexed_requests_registry, List.map_append, List.filter_map]
  congr 1
  rw [← List.map_insertionSort (fun x y : Nat × RegisterServerRequest => x.1 ≤ y.1)
    (fun x y : Nat × (String × RegisteredServerEntry) => x.1 ≤ y.1)
    (fun x => (x.1, (x.2.server.serverUri, entryOf x.2))) _ (fun _ _ _ _ => Iff.rfl)]
  rw [List.map_map, List.map_map]
  rfl

/-- The requests with an array-index serverUri, sorted by index, are in strictly
ascending order of index when the serverUri are pairwise distinct. -/
theorem indexed_requests_sorted (requests : List RegisterServerRequest)
    (hdistinct : (requests.map (fun r => r.server.serverUri)).Nodup) :
    (((requests.filterMap
          (fun r => (JSObject.arrayIndex? r.server.serverUri).map (fun n => (n, r)))).insertionSort
          (fun x y => x.1 ≤ y.1)).map Prod.snd).Pairwise
      (fun a b => ∃ m n, JSObject.arrayIndex? a.server.serverUri = some m ∧
        JSObject.arrayIndex? b.server.serverUri = some n ∧ m < n) := by
  have hmem : ∀ x ∈ (requests.filterMap
      (fun r => (JSObject.arrayIndex? r.server.serverUri).map (fun n => (n, r)))).insertionSort
      (fun x y => x.1 ≤ y.1), JSObject.arrayIndex? x.2.server.serverUri = some x.1 := by
    intro x hx
    rw [List.mem_insertionSort, List.mem_filterMap] at hx
    obtain ⟨r, _, hr⟩ := hx
    cases h : JSObject.arrayIndex? r.server.serverUri with
    | none => simp [h] at hr
    | some n =>
      simp only [h, Option.map_some', Option.some.injEq] at hr
      rw [← hr]
      exact h
  have hne0 : (requests.filterMap
      (fun r => (JSObject.arrayIndex? r.server.serverUri).map (fun n => (n, r)))).Pairwise
      (fun x y => x.1 ≠ y.1) := by
    have hp : requests.Pairwise (fun a b => a.server.serverUri ≠ b.server.serverUri) :=
      (List.pairwise_map).1 hdistinct
    refine List.Pairwise.filterMap _ ?_ hp
    intro a a' haa b hb b' hb' hbb
    cases ha : JSObject.arrayIndex? a.server.serverUri with
    | none => simp [ha] at hb
    | some n =>
      cases ha' : JSObject.arrayIndex? a'.server.serverUri with
      | none => simp [ha'] at hb'
      | some n' =>
        simp only [ha, Option.map_some', Option.mem_def, Option.some.injEq] at hb
        simp only [ha', Option.map_some', Option.mem_def, Option.some.injEq] at hb'
        rw [← hb, ← hb'] at hbb
        have hnn : n = n' := hbb
        rw [← hnn] at ha'
        exact haa (JSObject.arrayIndex?_inj _ _ n ha ha')
  have hne : ((requests.filterMap
      (fun r => (JSObject.arrayIndex? r.server.serverUri).map (fun n => (n, r)))).insertionSort
      (fun x y => x.1 ≤ y.1)).Pairwise (fun x y => x.1 ≠ y.1) :=
    ((List.perm_insertionSort _ _).pairwise_iff (fun {_ _} h => Ne.symm h)).2 hne0
  have hle := JSObject.sorted_insertionSort_fst (requests.filterMap
      (fun r => (JSObject.arrayIndex? r.server.serverUri).map (fun n => (n, r))))
  have hlt := (List.Pairwise.and hle hne)
  rw [List.pairwise_map]
  refine List.Pairwise.imp_of_mem ?_ hlt
  intro x y hx hy hxy
  exact ⟨x.1, y.1, hmem x hx, hmem y hy, Nat.lt_of_le_of_ne hxy.1 hxy.2⟩

/-! ## Order of the discovery result, replacement and round trip -/

/-- C11 (as stated, refuted): the two valid online registrations with the distinct
serverUri "2" and then "1", applied to the empty registry, are listed by
getServers with the one registered second before the one registered first. -/
theorem C11_array_index_keys_are_reordered :
    (∀ r ∈ indexRequests, passesValidation r = true ∧ r.server.isOnline = true) ∧
      (indexRequests.map (fun r => r.server.serverUri)).Nodup ∧
      (getServers sampleDiscoveryUrls (handleAll blankServer indexRequests) 0).1
        ≠ { blankServer.serverInfo with discoveryUrls := sampleDiscoveryUrls 0 }
            :: indexRequests.map (fun r => prepareServerInfo r.server) ∧
      (getServers sampleDiscoveryUrls (handleAll blankServer indexRequests) 0).1
        = { blankServer.serverInfo with discoveryUrls := sampleDiscoveryUrls 0 }
            :: indexRequests.reverse.map (fun r => prepareServerInfo r.server) := by
  decide

/-- C11 (amended): for every sequence of requests that pass validation with
isOnline = true and have pairwise-distinct serverUri strings, none of which is
"__proto__", applied in order to an empty registry, getServers returns the
service's own description, followed by the serverInfo projections of the
requests whose serverUri is an array index, in strictly ascending order of that
index, followed by the projections of all other requests in exactly the order in
which they were registered; in particular, when no serverUri is an array index,
the projections of all entries are in the order of registration. -/
theorem C11_getServers_registration_order {Channel : Type}
    (getDiscoveryUrls : Channel → List String) (channel : Channel)
    (own : ApplicationDescription) (requests : List RegisterServerRequest)
    (hvalid : ∀ r ∈ requests, passesValidation r = true ∧ r.server.isOnline = true)
    (hdistinct : (requests.map (fun r => r.server.serverUri)).Nodup)
    (hproto : ∀ r ∈ requests, r.server.serverUri ≠ "__proto__") :
    (∃ indexed : List RegisterServerRequest,
      indexed.Perm
          (requests.filter (fun r => (JSObject.arrayIndex? r.server.serverUri).isSome)) ∧
        indexed.Pairwise
          (fun a b => ∃ m n, JSObject.arrayIndex? a.server.serverUri = some m ∧
            JSObject.arrayIndex? b.server.serverUri = some n ∧ m < n) ∧
        (getServers getDiscoveryUrls
            (handleAll { serverInfo := own, registered_servers := [] } requests) channel).1
          = { own with discoveryUrls := getDiscoveryUrls channel }
              :: (indexed
                  ++ requests.filter
                      (fun r => (JSObject.arrayIndex? r.server.serverUri).isNone)).map
                  (fun r => prepareServerInfo r.server)) ∧
      ((∀ r ∈ requests, JSObject.arrayIndex? r.server.serverUri = none) →
        (getServers getDiscoveryUrls
            (handleAll { serverInfo := own, registered_servers := [] } requests) channel).1
          = { own with discoveryUrls := getDiscoveryUrls channel }
              :: requests.map (fun r => prepareServerInfo r.server)) := by
  have hreg := handleAll_registry requests { serverInfo := own, registered_servers := [] }
    (fun r hr => ⟨(hvalid r hr).1, (hvalid r hr).2, hproto r hr, rfl⟩) hdistinct
  simp only [List.nil_append] at hreg
  constructor
  · refine ⟨((requests.filterMap
        (fun r => (JSObject.arrayIndex? r.server.serverUri).map (fun n => (n, r)))).insertionSort
        (fun x y => x.1 ≤ y.1)).map Prod.snd, ?_, indexed_requests_sorted requests hdistinct, ?_⟩
    · rw [← indexed_requests_map_snd]
      exact (List.perm_insertionSort _ _).map _
    · rw [getServers_list, handleAll_serverInfo, hreg]
      unfold JSObject.values
      rw [enumerate_requests]
      simp [List.map_map, entryOf, Function.comp_def]
  · intro hkeys
    rw [getServers_list, handleAll_serverInfo, hreg]
    unfold JSObject.values
    rw [JSObject.enumerate_eq_self]
    · simp [List.map_map, entryOf, Function.comp_def]
    · intro p hp
      rcases List.mem_map.1 hp with ⟨r, hr, rfl⟩
      exact hkeys r hr

theorem C11_getServers_registration_order_witness :
    (∀ r ∈ mixedRequests, passesValidation r = true ∧ r.server.isOnline = true) ∧
      (mixedRequests.map (fun r => r.server.serverUri)).Nodup ∧
      (∀ r ∈ mixedRequests, r.server.serverUri ≠ "__proto__") ∧
      (∃ indexed : List RegisterServerRequest,
        indexed.Perm
            (mixedRequests.filter
              (fun r => (JSObject.arrayIndex? r.server.serverUri).isSome)) ∧
          indexed.Pairwise
            (fun a b => ∃ m n, JSObject.arrayIndex? a.server.serverUri = some m ∧
              JSObject.arrayIndex? b.server.serverUri = some n ∧ m < n) ∧
          (getServers sampleDiscoveryUrls
              (handleAll { serverInfo := blankServer.serverInfo, registered_servers := [] }
                mixedRequests) 0).1
            = { blankServer.serverInfo with discoveryUrls := sampleDiscoveryUrls 0 }
                :: (indexed
                    ++ mixedRequests.filter
                        (fun r => (JSObject.arrayIndex? r.server.serverUri).isNone)).map
                    (fun r => prepareServerInfo r.server)) ∧
      ((getServers sampleDiscoveryUrls
          (handleAll { serverInfo := blankServer.serverInfo, registered_servers := [] }
            mixedRequests) 0).1.map (fun d => d.productUri))
        = [some "SampleDiscoveryServer", some "product 1", some "product 2",
            some "product b", some "product a"] :=
  ⟨by decide, by decide, by decide,
    (C11_getServers_registration_order sampleDiscoveryUrls 0 blankServer.serverInfo
      mixedRequests (by decide) (by decide) (by decide)).1,
    by decide⟩

/-- C12: for every server state and every two requests that both pass validation
with isOnline = true and carry the same serverUri, handling the first and then
the second leaves the same server state (registry keys, entries, projections and
order, hence the same getServers result and registeredServerCount) as handling
the second alone; with twice the same request, the state is that after one. -/
theorem C12_last_write_wins (server : OPCUADiscoveryServer)
    (r1 r2 : RegisterServerRequest)
    (hv1 : passesValidation r1 = true) (hon1 : r1.server.isOnline = true)
    (hv2 : passesValidation r2 = true) (hon2 : r2.server.isOnline = true)
    (huri : r1.server.serverUri = r2.server.serverUri) :
    (_on_RegisterServerRequest (_on_RegisterServerRequest server r1).1 r2).1
        = (_on_RegisterServerRequest server r2).1 ∧
      registeredServerCount (_on_RegisterServerRequest (_on_RegisterServerRequest server r1).1 r2).1
        = registeredServerCount (_on_RegisterServerRequest server r2).1 ∧
      (∀ (Channel : Type) (getDiscoveryUrls : Channel → List String) (channel : Channel),
        (getServers getDiscoveryUrls
            (_on_RegisterServerRequest (_on_RegisterServerRequest server r1).1 r2).1 channel).1
          = (getServers getDiscoveryUrls (_on_RegisterServerRequest server r2).1 channel).1) ∧
      (r1 = r2 →
        (_on_RegisterServerRequest (_on_RegisterServerRequest server r1).1 r1).1
          = (_on_RegisterServerRequest server r1).1) := by
  have key : ∀ a b : RegisterServerRequest, passesValidation a = true →
      a.server.isOnline = true → passesValidation b = true → b.server.isOnline = true →
      a.server.serverUri = b.server.serverUri →
      (_on_RegisterServerRequest (_on_RegisterServerRequest server a).1 b).1
        = (_on_RegisterServerRequest server b).1 := by
    intro a b ha hoa hb hob hab
    apply server_ext
    · rw [serverInfo_after, serverInfo_after, serverInfo_after]
    · rw [registry_after, if_pos hb, if_pos hob, registry_after, if_pos ha, if_pos hoa,
        registry_after, if_pos hb, if_pos hob, hab, JSObject.set_set]
  have h := key r1 r2 hv1 hon1 hv2 hon2 huri
  refine ⟨h, by rw [h], fun _ _ _ => by rw [h], fun _ => key r1 r1 hv1 hon1 hv1 hon1 rfl⟩

theorem C12_last_write_wins_witness :
    passesValidation registerRequest = true ∧
      passesValidation (namedRequest "uri:MyServerURI" "other product") = true ∧
      registerRequest.server.serverUri
        = (namedRequest "uri:MyServerURI" "other product").server.serverUri ∧
      registerRequest ≠ namedRequest "uri:MyServerURI" "other product" ∧
      (_on_RegisterServerRequest (_on_RegisterServerRequest twoServers registerRequest).1
          (namedRequest "uri:MyServerURI" "other product")).1
        = (_on_RegisterServerRequest twoServers
            (namedRequest "uri:MyServerURI" "other product")).1 :=
  ⟨by decide, by decide, by decide, by decide,
    (C12_last_write_wins twoServers registerRequest
      (namedRequest "uri:MyServerURI" "other product")
      (by decide) (by decide) (by decide) (by decide) (by decide)).1⟩

/-- C13: on the empty registry, registering and then unregistering the valid
request whose serverUri is "__proto__" succeeds both times and ends with the
empty registry, but in between registeredServerCount is 0 and getServers has
length 1, not 1 and 2. -/
theorem C13_proto_round_trip_in_between :
    passesValidation protoRequest = true ∧
      protoRequest.server.serverUri ∉ JSObject.keys blankServer.registered_servers ∧
      serviceResults (_on_RegisterServerRequest blankServer protoRequest).2
        = [StatusCode.Good] ∧
      serviceResults (_on_RegisterServerRequest
        (_on_RegisterServerRequest blankServer protoRequest).1 protoUnregisterRequest).2
        = [StatusCode.Good] ∧
      registeredServerCount (_on_RegisterServerRequest blankServer protoRequest).1 = 0 ∧
      (getServers sampleDiscoveryUrls
        (_on_RegisterServerRequest blankServer protoRequest).1 0).1.length = 1 ∧
      (_on_RegisterServerRequest
        (_on_RegisterServerRequest blankServer protoRequest).1 protoUnregisterRequest).1
        = blankServer := by
  decide

/-- For every server state and every request with a string serverUri the handler sends exactly one
response; its serviceResult is one of Good, BadInvalidArgument,
BadServerNameMissing, BadDiscoveryUrlMissing, and it is Good if and only if
serverType is Server, ClientAndServer or DiscoveryServer, serverNames is
non-empty and discoveryUrls is non-empty, whatever isOnline and the registry are. -/
theorem exactly_one_response_of_string_serverUri (server : OPCUADiscoveryServer)
    (request : RegisterServerRequest) :
    ∃ code : StatusCode,
      (_on_RegisterServerRequest server request).2
        = [{ responseHeader := { serviceResult := code } }] ∧
      (code = StatusCode.Good ∨ code = StatusCode.BadInvalidArgument ∨
        code = StatusCode.BadServerNameMissing ∨ code = StatusCode.BadDiscoveryUrlMissing) ∧
      (code = StatusCode.Good ↔
        (request.server.serverType = ApplicationType.SERVER ∨
          request.server.serverType = ApplicationType.CLIENTANDSERVER ∨
          request.server.serverType = ApplicationType.DISCOVERYSERVER) ∧
        request.server.serverNames ≠ [] ∧ request.server.discoveryUrls ≠ []) := by
  rw [← isValide_iff]
  unfold _on_RegisterServerRequest
  by_cases h1 : _isValideServerType request.server.serverType = true
  · by_cases h2 : request.server.serverNames = []
    · exact ⟨StatusCode.BadServerNameMissing, by simp [h1, h2, sendError], by simp,
        by simp [h2]⟩
    · by_cases h3 : request.server.discoveryUrls = []
      · exact ⟨StatusCode.BadDiscoveryUrlMissing, by simp [h1, h2, h3, sendError], by simp,
          by simp [h3]⟩
      · exact ⟨StatusCode.Good, by simp [h1, h2, h3, RegisterServerResponse.default], by simp,
          by simp [h1, h2, h3]⟩
  · exact ⟨StatusCode.BadInvalidArgument, by simp [h1, sendError], by simp, by simp [h1]⟩

/-! ## Invariant, unregistration, construction and frame -/

/-- On a request with a null serverUri the handler throws, and sends no response,
exactly when the three checks pass and either isOnline is true or the registry
has a property named "null"; in every other case it sends exactly one response. -/
theorem threw_iff (server : OPCUADiscoveryServer) (request : DecodedRegisterServerRequest) :
    (threw server request = true ↔
      request.server.serverUri = none ∧
        _isValideServerType request.server.serverType = true ∧
        request.server.serverNames ≠ [] ∧ request.server.discoveryUrls ≠ [] ∧
        (request.server.isOnline = true ∨
          JSObject.hasOwn server.registered_servers "null" = true)) ∧
      (threw server request = true → responsesSent server request = []) ∧
      (threw server request = false → (responsesSent server request).length = 1) := by
  unfold threw responsesSent _on_RegisterServerRequest_decoded
  cases huri : request.server.serverUri with
  | some k =>
    obtain ⟨code, hcode, _⟩ := exactly_one_response_of_string_serverUri server
      { server := request.server.withServerUri k }
    simp [hcode]
  | none =>
    by_cases h1 : _isValideServerType request.server.serverType = true
    · by_cases h2 : request.server.serverNames = []
      · simp [h1, h2]
      · by_cases h3 : request.server.discoveryUrls = []
        · simp [h1, h2, h3]
        · by_cases h4 : request.server.isOnline = true
          · simp [h1, h2, h3, h4]
          · by_cases h5 : JSObject.hasOwn server.registered_servers "null" = true
            · simp [h1, h2, h3, h4, h5]
            · simp [h1, h2, h3, h4, h5]
    · simp [h1]

/-- C14: the request with a null serverUri that passes the three checks with
isOnline = true makes the handler throw a TypeError on the empty registry before
any response is sent, so no response is sent at all; with isOnline = false the
same happens once a server whose serverUri is "null" is registered. -/
theorem C14_null_serverUri_throws :
    ((nullUriRequest true).server.serverUri = none ∧
        (nullUriRequest true).server.serverType = ApplicationType.SERVER ∧
        (nullUriRequest true).server.serverNames ≠ [] ∧
        (nullUriRequest true).server.discoveryUrls ≠ [] ∧
        (nullUriRequest true).server.isOnline = true) ∧
      _on_RegisterServerRequest_decoded blankServer (nullUriRequest true)
        = Except.error JSError.TypeError ∧
      responsesSent blankServer (nullUriRequest true) = [] ∧
      _on_RegisterServerRequest_decoded nullKeyServer (nullUriRequest false)
        = Except.error JSError.TypeError ∧
      responsesSent nullKeyServer (nullUriRequest false) = [] := by
  refine ⟨by decide, rfl, by decide, rfl, by decide⟩

/-- C15: in every registry state reached from the empty registry by any sequence
of requests (valid or not, online or not), every stored entry has a serverType
in Server, ClientAndServer, DiscoveryServer, non-empty serverNames, non-empty
discoveryUrls, isOnline = true and a serverUri equal to the key it is stored
under, and no key occurs twice. -/
theorem C15_registry_invariant (own : ApplicationDescription)
    (requests : List RegisterServerRequest) :
    (∀ (key : String) (e : RegisteredServerEntry),
        JSObject.get?
            (handleAll { serverInfo := own, registered_servers := [] } requests).registered_servers
            key = some e →
          (e.server.serverType = ApplicationType.SERVER ∨
            e.server.serverType = ApplicationType.CLIENTANDSERVER ∨
            e.server.serverType = ApplicationType.DISCOVERYSERVER) ∧
          e.server.serverNames ≠ [] ∧ e.server.discoveryUrls ≠ [] ∧
          e.server.isOnline = true ∧ e.server.serverUri = key) ∧
      (∀ p ∈ JSObject.enumerate
            (handleAll { serverInfo := own, registered_servers := [] } requests).registered_servers,
          (p.2.server.serverType = ApplicationType.SERVER ∨
            p.2.server.serverType = ApplicationType.CLIENTANDSERVER ∨
            p.2.server.serverType = ApplicationType.DISCOVERYSERVER) ∧
          p.2.server.serverNames ≠ [] ∧ p.2.server.discoveryUrls ≠ [] ∧
          p.2.server.isOnline = true ∧ p.2.server.serverUri = p.1) ∧
      (JSObject.keys
        (handleAll { serverInfo := own, registered_servers := [] } requests).registered_servers).Nodup := by
  have hinv := handleAll_invariant
    (fun o => ∀ p ∈ o,
      passesValidation { server := p.2.server } = true ∧ p.2.server.isOnline = true ∧
        p.2.server.serverUri = p.1 ∧ p.2.serverInfo = prepareServerInfo p.2.server)
    entries_valid_step requests { serverInfo := own, registered_servers := [] }
    (fun p hp => absurd hp (List.not_mem_nil p))
  have hwf := handleAll_invariant (fun o => JSObject.WellFormed o)
    wellFormed_on_RegisterServerRequest requests
    { serverInfo := own, registered_servers := [] } wellFormed_nil
  have hentry : ∀ p ∈
      (handleAll { serverInfo := own, registered_servers := [] } requests).registered_servers,
      (p.2.server.serverType = ApplicationType.SERVER ∨
        p.2.server.serverType = ApplicationType.CLIENTANDSERVER ∨
        p.2.server.serverType = ApplicationType.DISCOVERYSERVER) ∧
      p.2.server.serverNames ≠ [] ∧ p.2.server.discoveryUrls ≠ [] ∧
      p.2.server.isOnline = true ∧ p.2.server.serverUri = p.1 := by
    intro p hp
    obtain ⟨hv, hon, huri, _⟩ := hinv p hp
    obtain ⟨ht, hn, hu⟩ := (passesValidation_iff _).1 hv
    exact ⟨ht, hn, hu, hon, huri⟩
  refine ⟨?_, ?_, ?_⟩
  · intro key e he
    exact hentry (key, e) (mem_of_get? _ _ _ he)
  · intro p hp
    exact hentry p ((JSObject.enumerate_perm _).mem_iff.1 hp)
  · exact ((JSObject.enumerate_perm _).map Prod.fst).nodup_iff.2 hwf.1

/-- C16 (as stated, refuted): with "uri:MyServerURI" registered, the request with
isOnline = false for that serverUri that carries no discoveryUrls is answered
with BadDiscoveryUrlMissing; the key is still in the registry and
registeredServerCount is still 1. -/
theorem C16_unregister_without_urls_keeps_the_key :
    noUrlRequest.server.isOnline = false ∧
      noUrlRequest.server.serverUri ∈ JSObject.keys oneServer.registered_servers ∧
      registeredServerCount oneServer = 1 ∧
      serviceResults (_on_RegisterServerRequest oneServer noUrlRequest).2
        = [StatusCode.BadDiscoveryUrlMissing] ∧
      noUrlRequest.server.serverUri
        ∈ JSObject.keys (_on_RegisterServerRequest oneServer noUrlRequest).1.registered_servers ∧
      registeredServerCount (_on_RegisterServerRequest oneServer noUrlRequest).1 = 1 := by
  decide

/-- C16 (amended): for every request with isOnline = false whose serverUri is a
key of a well-formed registry: if the request passes validation (valid
serverType, non-empty serverNames, non-empty discoveryUrls) exactly one response
is sent, the success response, the key is no longer in the registry and
registeredServerCount has decreased by 1; if it fails validation exactly one
response is sent, whose result is the code of the first failing check
(BadInvalidArgument for the serverType, else BadServerNameMissing for empty
serverNames, else BadDiscoveryUrlMissing), and the registry, that key and
registeredServerCount included, is unchanged. -/
theorem C16_unregister_requires_validation (server : OPCUADiscoveryServer)
    (request : RegisterServerRequest)
    (hwf : JSObject.WellFormed server.registered_servers)
    (hoffline : request.server.isOnline = false)
    (hmem : request.server.serverUri ∈ JSObject.keys server.registered_servers) :
    (passesValidation request = true →
        (_on_RegisterServerRequest server request).2
            = [{ responseHeader := { serviceResult := StatusCode.Good } }] ∧
          request.server.serverUri
            ∉ JSObject.keys (_on_RegisterServerRequest server request).1.registered_servers ∧
          registeredServerCount (_on_RegisterServerRequest server request).1 + 1
            = registeredServerCount server) ∧
      (passesValidation request = false →
        (_on_RegisterServerRequest server request).2
            = [{ responseHeader :=
                  { serviceResult :=
                      if _isValideServerType request.server.serverType = false then
                        StatusCode.BadInvalidArgument
                      else if request.server.serverNames = [] then
                        StatusCode.BadServerNameMissing
                      else StatusCode.BadDiscoveryUrlMissing } }] ∧
          (_on_RegisterServerRequest server request).1.registered_servers
            = server.registered_servers ∧
          request.server.serverUri
            ∈ JSObject.keys (_on_RegisterServerRequest server request).1.registered_servers ∧
          registeredServerCount (_on_RegisterServerRequest server request).1
            = registeredServerCount server) := by
  have hown := (JSObject.hasOwn_iff_mem_keys _ _).2 hmem
  constructor
  · intro hv
    obtain ⟨htype, hnames, hurls⟩ := (passesValidation_iff request).1 hv
    have hval : _isValideServerType request.server.serverType = true := (isValide_iff _).2 htype
    refine ⟨?_, ?_, ?_⟩
    · simp [_on_RegisterServerRequest, hval, hnames, hurls, RegisterServerResponse.default]
    · rw [registry_after, if_pos hv, if_neg (by simp [hoffline]),
        ← JSObject.hasOwn_iff_mem_keys, JSObject.hasOwn_delete]
      simp
    · simp only [registeredServerCount, JSObject.length_keys]
      rw [registry_after, if_pos hv, if_neg (by simp [hoffline])]
      exact JSObject.length_delete _ _ hwf.1 hown
  · intro hv
    have hreg : (_on_RegisterServerRequest server request).1.registered_servers
        = server.registered_servers := by
      rw [registry_after, if_neg (by simp [hv])]
    refine ⟨?_, hreg, by rw [hreg]; exact hmem, by simp only [registeredServerCount, hreg]⟩
    by_cases h1 : _isValideServerType request.server.serverType = true
    · by_cases h2 : request.server.serverNames = []
      · simp [_on_RegisterServerRequest, h1, h2, sendError]
      · by_cases h3 : request.server.discoveryUrls = []
        · simp [_on_RegisterServerRequest, h1, h2, h3, sendError]
        · exfalso
          have := (passesValidation_iff request).2 ⟨(isValide_iff _).1 h1, h2, h3⟩
          rw [hv] at this
          exact absurd this (by simp)
    · simp [_on_RegisterServerRequest, h1, sendError]

theorem C16_unregister_requires_validation_witness :
    JSObject.WellFormed oneServer.registered_servers ∧
      (unregisterRequest.server.isOnline = false ∧
        unregisterRequest.server.serverUri ∈ JSObject.keys oneServer.registered_servers ∧
        passesValidation unregisterRequest = true ∧
        (_on_RegisterServerRequest oneServer unregisterRequest).2
          = [{ responseHeader := { serviceResult := StatusCode.Good } }] ∧
        unregisterRequest.server.serverUri
          ∉ JSObject.keys (_on_RegisterServerRequest oneServer unregisterRequest).1.registered_servers ∧
        registeredServerCount (_on_RegisterServerRequest oneServer unregisterRequest).1 + 1
          = registeredServerCount oneServer) ∧
      (noUrlRequest.server.isOnline = false ∧
        noUrlRequest.server.serverUri ∈ JSObject.keys oneServer.registered_servers ∧
        passesValidation noUrlRequest = false ∧
        (_on_RegisterServerRequest oneServer noUrlRequest).2
          = [{ responseHeader := { serviceResult := StatusCode.BadDiscoveryUrlMissing } }] ∧
        (_on_RegisterServerRequest oneServer noUrlRequest).1.registered_servers
          = oneServer.registered_servers ∧
        registeredServerCount (_on_RegisterServerRequest oneServer noUrlRequest).1
          = registeredServerCount oneServer) :=
  have hok := (C16_unregister_requires_validation oneServer unregisterRequest (by decide)
    (by decide) (by decide)).1 (by decide)
  have hfail := (C16_unregister_requires_validation oneServer noUrlRequest (by decide)
    (by decide) (by decide)).2 (by decide)
  ⟨by decide,
    ⟨by decide, by decide, by decide, hok.1, hok.2.1, hok.2.2⟩,
    ⟨by decide, by decide, by decide, hfail.1, hfail.2.1, hfail.2.2.2⟩⟩

/-- C17: whatever `options.serverInfo` holds, the constructed server's own
description has applicationType DISCOVERYSERVER and the registry is empty
(registeredServerCount = 0); every non-empty applicationUri, productUri,
gatewayServerUri and discoveryProfileUri and every applicationName and
discoveryUrls supplied by the caller is kept; a missing field gets its default
(the default application URI, "SampleDiscoveryServer", the name
"SampleDiscoveryServer" without locale, "", "" and the empty list). -/
theorem C17_constructor (defaultApplicationUri : String) (options : Option ServerInfoOptions) :
    (OPCUADiscoveryServer.new defaultApplicationUri options).serverInfo.applicationType
        = ApplicationType.DISCOVERYSERVER ∧
      (OPCUADiscoveryServer.new defaultApplicationUri options).registered_servers = [] ∧
      registeredServerCount (OPCUADiscoveryServer.new defaultApplicationUri options) = 0 ∧
      (∀ o : ServerInfoOptions, options = some o →
        (∀ u, o.applicationUri = some u → u ≠ "" →
          (OPCUADiscoveryServer.new defaultApplicationUri options).serverInfo.applicationUri
            = some u) ∧
        (∀ u, o.productUri = some u → u ≠ "" →
          (OPCUADiscoveryServer.new defaultApplicationUri options).serverInfo.productUri
            = some u) ∧
        (∀ n, o.applicationName = some n →
          (OPCUADiscoveryServer.new defaultApplicationUri options).serverInfo.applicationName
            = some n) ∧
        (∀ u, o.gatewayServerUri = some u → u ≠ "" →
          (OPCUADiscoveryServer.new defaultApplicationUri options).serverInfo.gatewayServerUri
            = some u) ∧
        (∀ u, o.discoveryProfileUri = some u → u ≠ "" →
          (OPCUADiscoveryServer.new defaultApplicationUri options).serverInfo.discoveryProfileUri
            = some u) ∧
        (∀ l, o.discoveryUrls = some l →
          (OPCUADiscoveryServer.new defaultApplicationUri options).serverInfo.discoveryUrls
            = l) ∧
        (o.applicationUri = none →
          (OPCUADiscoveryServer.new defaultApplicationUri options).serverInfo.applicationUri
            = some defaultApplicationUri) ∧
        (o.productUri = none →
          (OPCUADiscoveryServer.new defaultApplicationUri options).serverInfo.productUri
            = some "SampleDiscoveryServer") ∧
        (o.applicationName = none →
          (OPCUADiscoveryServer.new defaultApplicationUri options).serverInfo.applicationName
            = some { text := some "SampleDiscoveryServer", locale := none }) ∧
        (o.gatewayServerUri = none →
          (OPCUADiscoveryServer.new defaultApplicationUri options).serverInfo.gatewayServerUri
            = some "") ∧
        (o.discoveryProfileUri = none →
          (OPCUADiscoveryServer.new defaultApplicationUri options).serverInfo.discoveryProfileUri
            = some "") ∧
        (o.discoveryUrls = none →
          (OPCUADiscoveryServer.new defaultApplicationUri options).serverInfo.discoveryUrls
            = [])) ∧
      (options = none →
        (OPCUADiscoveryServer.new defaultApplicationUri options).serverInfo =
          { applicationUri := some defaultApplicationUri
            applicationType := ApplicationType.DISCOVERYSERVER
            productUri := some "SampleDiscoveryServer"
            applicationName := some { text := some "SampleDiscoveryServer", locale := none }
            gatewayServerUri := some ""
            discoveryProfileUri := some ""
            discoveryUrls := [] }) := by
  refine ⟨rfl, rfl, rfl, ?_, ?_⟩
  · intro o ho
    subst ho
    refine ⟨?_, ?_, ?_, ?_, ?_, ?_, ?_, ?_, ?_, ?_, ?_, ?_⟩
    · intro u hu hne; simp [OPCUADiscoveryServer.new, orObject, orString, hu, hne]
    · intro u hu hne; simp [OPCUADiscoveryServer.new, orObject, orString, hu, hne]
    · intro n hn; simp [OPCUADiscoveryServer.new, orObject, hn]
    · intro u hu hne; simp [OPCUADiscoveryServer.new, orObject, orString, hu, hne]
    · intro u hu hne; simp [OPCUADiscoveryServer.new, orObject, orString, hu, hne]
    · intro l hl; simp [OPCUADiscoveryServer.new, orObject, hl]
    · intro hu; simp [OPCUADiscoveryServer.new, orObject, orString, hu]
    · intro hu; simp [OPCUADiscoveryServer.new, orObject, orString, hu]
    · intro hn; simp [OPCUADiscoveryServer.new, orObject, hn]
    · intro hu; simp [OPCUADiscoveryServer.new, orObject, orString, hu]
    · intro hu; simp [OPCUADiscoveryServer.new, orObject, orString, hu]
    · intro hl; simp [OPCUADiscoveryServer.new, orObject, hl]
  · intro ho
    subst ho
    rfl

theorem C17_constructor_witness :
    fullOptions.applicationType = some ApplicationType.CLIENT ∧
      (OPCUADiscoveryServer.new "urn:host:NodeOPCUA-DiscoveryServer"
          (some fullOptions)).serverInfo.applicationType = ApplicationType.DISCOVERYSERVER ∧
      (OPCUADiscoveryServer.new "urn:host:NodeOPCUA-DiscoveryServer"
          (some fullOptions)).serverInfo.productUri = some "MyProduct" ∧
      (OPCUADiscoveryServer.new "urn:host:NodeOPCUA-DiscoveryServer"
          (some fullOptions)).serverInfo.discoveryUrls = ["opc.tcp://my:4840"] ∧
      OPCUADiscoveryServer.new "urn:host:NodeOPCUA-DiscoveryServer" none = blankServer :=
  have h := C17_constructor "urn:host:NodeOPCUA-DiscoveryServer" (some fullOptions)
  ⟨by decide, h.1, (h.2.2.2.1 fullOptions rfl).2.1 "MyProduct" rfl (by decide),
    (h.2.2.2.1 fullOptions rfl).2.2.2.2.2.1 ["opc.tcp://my:4840"] rfl, by decide⟩

/-- C18: for every server state and every request (valid or not, online or not),
a read of any key other than the request's serverUri gives the same entry before
and after the call, and the enumeration of the registry without that key (the
order in which getServers lists the other entries) is the same before and after. -/
theorem C18_frame (server : OPCUADiscoveryServer) (request : RegisterServerRequest) :
    (∀ key : String, key ≠ request.server.serverUri →
        JSObject.get? (_on_RegisterServerRequest server request).1.registered_servers key
          = JSObject.get? server.registered_servers key) ∧
      (JSObject.enumerate (_on_RegisterServerRequest server request).1.registered_servers).filter
          (fun p => !(p.1 == request.server.serverUri))
        = (JSObject.enumerate server.registered_servers).filter
          (fun p => !(p.1 == request.server.serverUri)) ∧
      (∀ (Channel : Type) (getDiscoveryUrls : Channel → List String) (channel : Channel),
        (getServers getDiscoveryUrls (_on_RegisterServerRequest server request).1 channel).1
            = { server.serverInfo with discoveryUrls := getDiscoveryUrls channel }
                :: (JSObject.enumerate
                    (_on_RegisterServerRequest server request).1.registered_servers).map
                    (fun p => p.2.serverInfo) ∧
          (getServers getDiscoveryUrls server channel).1
            = { server.serverInfo with discoveryUrls := getDiscoveryUrls channel }
                :: (JSObject.enumerate server.registered_servers).map
                    (fun p => p.2.serverInfo)) := by
  have hdel := delete_registry_after server request
  refine ⟨?_, ?_, ?_⟩
  · intro key hne
    rw [← JSObject.get?_delete_ne _ request.server.serverUri key hne, hdel,
      JSObject.get?_delete_ne _ _ _ hne]
  · have h1 := JSObject.enumerate_delete
      (_on_RegisterServerRequest server request).1.registered_servers request.server.serverUri
    have h2 := JSObject.enumerate_delete server.registered_servers request.server.serverUri
    unfold JSObject.delete at h1 h2 hdel
    rw [← h1, ← h2, hdel]
  · intro Channel g c
    constructor
    · rw [getServers_list, serverInfo_after]
      simp [JSObject.values, List.map_map, Function.comp_def]
    · rw [getServers_list]
      simp [JSObject.values, List.map_map, Function.comp_def]

/-- C19: re-registering a serverUri that is already a key of a well-formed
registry (a request that passes validation with isOnline = true) leaves the list
of registry keys in iteration order identical; the enumeration after the call is
the one before with the entry under that key replaced where it stood, and the
getServers result changes only at that position. -/
theorem C19_reregistration_keeps_position (server : OPCUADiscoveryServer)
    (request : RegisterServerRequest)
    (hwf : JSObject.WellFormed server.registered_servers)
    (hvalid : passesValidation request = true)
    (honline : request.server.isOnline = true)
    (hmem : request.server.serverUri ∈ JSObject.keys server.registered_servers) :
    JSObject.keys (_on_RegisterServerRequest server request).1.registered_servers
        = JSObject.keys server.registered_servers ∧
      JSObject.enumerate (_on_RegisterServerRequest server request).1.registered_servers
        = (JSObject.enumerate server.registered_servers).map
            (fun p => if p.1 == request.server.serverUri then (p.1, entryOf request) else p) ∧
      (∀ (Channel : Type) (getDiscoveryUrls : Channel → List String) (channel : Channel),
        (getServers getDiscoveryUrls (_on_RegisterServerRequest server request).1 channel).1
          = { server.serverInfo with discoveryUrls := getDiscoveryUrls channel }
              :: (JSObject.enumerate server.registered_servers).map
                  (fun p => if p.1 == request.server.serverUri
                    then prepareServerInfo request.server else p.2.serverInfo)) := by
  have hown := (JSObject.hasOwn_iff_mem_keys _ _).2 hmem
  have hkey : request.server.serverUri ≠ "__proto__" := by
    intro e
    apply hwf.2
    rw [← e]
    exact (JSObject.hasOwn_iff _ _).1 hown
  have hf : ∀ p : String × RegisteredServerEntry,
      (if p.1 == request.server.serverUri then (p.1, entryOf request) else p).1 = p.1 := by
    intro p
    by_cases hp : p.1 = request.server.serverUri <;> simp [hp]
  have henum :
      JSObject.enumerate (_on_RegisterServerRequest server request).1.registered_servers
        = (JSObject.enumerate server.registered_servers).map
            (fun p => if p.1 == request.server.serverUri then (p.1, entryOf request) else p) := by
    rw [registry_after, if_pos hvalid, if_pos honline,
      JSObject.set_of_hasOwn _ _ _ hkey hown, JSObject.enumerate_map _ hf]
  refine ⟨?_, henum, ?_⟩
  · unfold JSObject.keys
    rw [henum, List.map_map]
    apply List.map_congr_left
    intro p _
    exact hf p
  · intro Channel g c
    rw [getServers_list, serverInfo_after]
    unfold JSObject.values
    rw [henum, List.map_map, List.map_map]
    congr 1
    apply List.map_congr_left
    intro p _
    by_cases hp : p.1 = request.server.serverUri <;> simp [hp, entryOf]

theorem C19_reregistration_keeps_position_witness :
    JSObject.WellFormed twoServers.registered_servers ∧
      passesValidation (namedRequest "uri:a" "product c") = true ∧
      JSObject.keys twoServers.registered_servers = ["uri:a", "uri:b"] ∧
      JSObject.keys
          (_on_RegisterServerRequest twoServers (namedRequest "uri:a" "product c")).1.registered_servers
        = JSObject.keys twoServers.registered_servers ∧
      ((getServers sampleDiscoveryUrls
          (_on_RegisterServerRequest twoServers (namedRequest "uri:a" "product c")).1 0).1.map
            (fun d => d.productUri))
        = [some "SampleDiscoveryServer", some "product c", some "product b"] :=
  ⟨by decide, by decide, by decide,
    (C19_reregistration_keeps_position twoServers (namedRequest "uri:a" "product c")
      (by decide) (by decide) (by decide) (by decide)).1,
    by decide⟩

end OpcuaDiscovery
